import Mathlib

/-!
Shallow embedding of the readme-generator repository core
(src/src/components/ReadmeGenerator.tsx and
src/supabase/functions/generate-readme/index.ts), with proofs about the
claims of the specification.

Modelling conventions:
* JavaScript strings are modelled as Lean `String`/`List Char` (Unicode code
  points; the sources only manipulate them code-point-wise in the fragments
  embedded here, and the concrete inputs used below are ASCII, where code
  units and code points coincide).
* JavaScript objects used as string-keyed maps are modelled as association
  lists in insertion order (plain own-property semantics; prototype-chain
  anomalies for exotic keys such as dunder names are outside the model).
* `Array.prototype.sort(cmp)` is modelled as a stable comparator sort
  (`sortS` below, a stable insertion sort).
* `String.prototype.localeCompare` under the default locale is modelled for
  ASCII input after the CLDR root collation used by the ICU-backed engines
  the app targets: primary strength compares the strings lowercased, and
  ties are broken with lowercase sorting before uppercase.
* JavaScript number arithmetic is modelled exactly over `ℚ` (the values
  arising in `languagesSummary` are far inside the double-precision exact
  range for the statements proved here).
-/

/-! ## Generic JavaScript-semantics helpers -/

/-- JavaScript truthiness on an optional string: `undefined`/`null` and the
empty string are falsy. -/
def truthyS : Option String → Bool
  | none => false
  | some s => s ≠ ""

/-- `a || b` for an optional string `a` and a string default `b`. -/
def jsOrStr (a : Option String) (b : String) : String :=
  match a with
  | some s => if s = "" then b else s
  | none => b

/-- One step of a stable insertion sort: insert `x` into `l`, placing it
before the first element `y` with `lt x y` (so after any element comparing
equal, preserving stability). -/
def insertS (lt : α → α → Bool) (x : α) : List α → List α
  | [] => [x]
  | y :: ys => if lt x y then x :: y :: ys else y :: insertS lt x ys

/-- Stable comparator sort, modelling `Array.prototype.sort` with a
consistent comparator: elements are inserted left to right. -/
def sortS (lt : α → α → Bool) (l : List α) : List α :=
  l.foldl (fun acc x => insertS lt x acc) []

/-- Ordinal (code-point) comparison of character lists, the order underlying
plain `<`/`>` on JavaScript strings. -/
def strCmpL : List Char → List Char → Ordering
  | [], [] => .eq
  | [], _ :: _ => .lt
  | _ :: _, [] => .gt
  | a :: as, b :: bs =>
    if a < b then .lt else if b < a then .gt else strCmpL as bs

/-- ASCII model of `String.prototype.toLowerCase` on a character list. -/
def toLowerL (s : List Char) : List Char := s.map Char.toLower

/-- ASCII model of `String.prototype.toLowerCase`. -/
def jsToLower (s : String) : String := ⟨toLowerL s.data⟩

/-- ASCII model of `String.prototype.toUpperCase`. -/
def jsToUpper (s : String) : String := ⟨s.data.map Char.toUpper⟩

/-- Model of `String.prototype.localeCompare` under the default locale for
ASCII strings (CLDR root collation as implemented by ICU-backed JavaScript
engines): compare the lowercased strings first; on a tie the ordinally
larger original (i.e. the lowercase variant) comes first. -/
def localeCmp (a b : String) : Ordering :=
  (strCmpL (toLowerL a.data) (toLowerL b.data)).then (strCmpL b.data a.data)

/-- ASCII fragment of the JavaScript `\s` class (and of `String.trim`). -/
def isWsCh (c : Char) : Bool :=
  c == ' ' || c == '\t' || c == '\n' || c == '\r' || c == '\x0b' || c == '\x0c'

/-- Model of `String.prototype.trim` on a character list. -/
def trimL (s : List Char) : List Char :=
  ((s.dropWhile isWsCh).reverse.dropWhile isWsCh).reverse

/-- Model of `String.prototype.trim`. -/
def jsTrim (s : String) : String := ⟨trimL s.data⟩

/-- Model of `str.endsWith(suffix)`. -/
def endsWithL (s suff : List Char) : Bool := suff.isSuffixOf s

/-- Model of `str.startsWith(pre)`. -/
def startsWithL (s pre : List Char) : Bool := pre.isPrefixOf s

/-- Model of `str.split(sep)` for a single-character separator `sep`. -/
def splitChL (sep : Char) : List Char → List (List Char)
  | [] => [[]]
  | c :: rest =>
    if c = sep then [] :: splitChL sep rest
    else
      match splitChL sep rest with
      | [] => [[c]]
      | h :: t => (c :: h) :: t

/-! ## Tree formatter (`formatFileTree`, ReadmeGenerator.tsx lines 86-121) -/

/-- A tree entry of the GitHub recursive tree listing
(`GitTreeItem { path, type }`); `ty` is `"blob"` or `"tree"`. -/
structure GitTreeItem where
  path : String
  ty : String
deriving Repr, DecidableEq

/-- The ad-hoc nested object built by `formatFileTree`: each node carries its
`__type` marker and its `__children` map, modelled as an association list in
insertion order. -/
inductive JNode where
  | mk (ty : String) (children : List (String × JNode))

/-- The `__type` marker of a node. -/
def JNode.ty : JNode → String
  | .mk t _ => t

/-- The `__children` map of a node. -/
def JNode.children : JNode → List (String × JNode)
  | .mk _ c => c

/-- Association-list lookup, modelling the own-property read `cur[part]`. -/
def alistFind (k : String) : List (String × JNode) → Option JNode
  | [] => none
  | (k', v) :: rest => if k' = k then some v else alistFind k rest

/-- Association-list update of an existing key, preserving insertion order. -/
def alistSet (k : String) (v : JNode) : List (String × JNode) → List (String × JNode)
  | [] => []
  | (k', v') :: rest => if k' = k then (k', v) :: rest else (k', v') :: alistSet k v rest

/-- The inner loop of `formatFileTree`'s tree construction: walk the path
segments, creating a node (`__type` = the item type on the last segment,
`"tree"` otherwise) when absent — an existing node keeps its type — and
descend into its children. -/
def insertSegs (m : List (String × JNode)) (parts : List String) (ty : String) :
    List (String × JNode) :=
  match parts with
  | [] => m
  | p :: rest =>
    let isLast := rest.isEmpty
    match alistFind p m with
    | some node => alistSet p (JNode.mk node.ty (insertSegs node.children rest ty)) m
    | none =>
      m ++ [(p, JNode.mk (if isLast then ty else "tree") (insertSegs [] rest ty))]

/-- `it.path.split("/")` as in the source. -/
def splitPath (path : String) : List String :=
  (splitChL '/' path.data).map (fun l => ⟨l⟩)

/-- The nested structure built from the flat item list. -/
def buildTree (items : List GitTreeItem) : List (String × JNode) :=
  items.foldl (fun root it => insertSegs root (splitPath it.path) it.ty) []

/-- The fixed denylist `skipDirs` of `formatFileTree`. -/
def skipDirs : List String :=
  ["node_modules", "dist", "build", ".next", ".git", ".vercel", "coverage"]

/-- `entries.sort((a, b) => a[0].localeCompare(b[0]))`. -/
def sortSiblings (l : List (String × JNode)) : List (String × JNode) :=
  sortS (fun a b => localeCmp a.1 b.1 == Ordering.lt) l

/-- The visible entries of a node map: `Object.entries(node)` filtered by
`!name.startsWith("__")`, then sorted by `localeCompare`. -/
def visibleEntries (m : List (String × JNode)) : List (String × JNode) :=
  sortSiblings (m.filter (fun e => !(startsWithL e.1.data "__".data)))

/-- Row loop of `render`: walk the (already filtered and sorted) entries with
their index; a denylisted name contributes nothing (`return` in `forEach`),
otherwise push the connector line and, for a `"tree"` node, the recursively
rendered children. `rec` is the recursive renderer for a child map. -/
def renderRows (rec : List (String × JNode) → String → List String)
    (l : List (String × JNode)) (pre : String) (idx n : Nat) : List String :=
  match l with
  | [] => []
  | (name, node) :: rest =>
    (if skipDirs.contains name then []
     else
       let isLast := idx == n - 1
       let connector := if isLast then "└── " else "├── "
       let line := pre ++ connector ++ name
       line ::
         (if node.ty == "tree" then
            rec node.children (pre ++ (if isLast then "    " else "│   "))
          else []))
    ++ renderRows rec rest pre (idx + 1) n

/-- Structural size of a node map, used to bound the recursion depth of the
renderer. -/
def treeSize : List (String × JNode) → Nat
  | [] => 0
  | (_, .mk _ c) :: rest => 1 + treeSize c + treeSize rest

/-- The recursive `render` of `formatFileTree`. The fuel argument only bounds
the recursion depth so the definition is structural; `renderFuel_irrel` below
shows any fuel of at least `treeSize` of the map gives the same result, and
`formatFileTree` passes such a fuel, so the embedding computes the full
rendering for every input. -/
def renderFuel : Nat → List (String × JNode) → String → List String
  | 0, _, _ => []
  | fuel + 1, m, pre =>
    let entries := visibleEntries m
    renderRows (renderFuel fuel) entries pre 0 entries.length

/-- `render(root)` with adequately large fuel. -/
def render (m : List (String × JNode)) (pre : String) : List String :=
  renderFuel (treeSize m) m pre

/-- A directly computable fuel bound for the tree built from an item list:
the total number of path segments.  `treeSize_buildTree_le` below shows it
dominates `treeSize` of the built tree, so by `renderFuel_adequate` the
renderer below computes the same lines as `render`
(`formatFileTreeLines_eq_render`). -/
def pathSegFuel (items : List GitTreeItem) : Nat :=
  (items.map (fun it => (splitPath it.path).length)).sum

/-- The line list of `formatFileTree`: `render(root).slice(0, 300)`. -/
def formatFileTreeLines (items : List GitTreeItem) : List String :=
  (renderFuel (pathSegFuel items) (buildTree items) "").take 300

/-- `formatFileTree`: the truncated rendering joined with newlines. -/
def formatFileTree (items : List GitTreeItem) : String :=
  String.intercalate "\n" (formatFileTreeLines items)

/-! ## Heuristic inferencer (ReadmeGenerator.tsx lines 124-188) -/

/-- `Math.round` on an exact rational: round half toward positive infinity. -/
def jround (q : ℚ) : ℤ := ⌊q + 1/2⌋

/-- One percentage of `languagesSummary`:
`total ? Math.round((v / total) * 1000) / 10 : 0`. -/
def pctOf (total v : ℕ) : ℚ :=
  if total = 0 then 0 else (jround ((v : ℚ) / (total : ℚ) * 1000) : ℚ) / 10

/-- The sorted percentage entries of `languagesSummary`: map each language to
its rounded percentage, then `sort((a, b) => b[1] - a[1])` (descending by
percentage). -/
def langEntries (langs : List (String × ℕ)) : List (String × ℚ) :=
  let total := (langs.map Prod.snd).sum
  sortS (fun a b => decide (b.2 < a.2)) (langs.map (fun kv => (kv.1, pctOf total kv.2)))

/-- JavaScript default printing of the numbers produced by `languagesSummary`
(non-negative multiples of one tenth): integers print with no decimal point,
otherwise one decimal digit is printed. -/
def fmtPct (q : ℚ) : String :=
  if q.den = 1 then toString q.num
  else toString (q.num / 10) ++ "." ++ toString (q.num % 10)

/-- `languagesSummary`: the first eight entries formatted as bullet lines,
and the top five language names. -/
def languagesSummary (langs : List (String × ℕ)) : String × List String :=
  let entries := langEntries langs
  (String.intercalate "\n"
      ((entries.take 8).map (fun kp => "- " ++ kp.1 ++ ": " ++ fmtPct kp.2 ++ "%")),
   (entries.take 5).map Prod.fst)

/-- The four package managers `guessPackageManager` can return. -/
inductive PM where
  | npm | pnpm | yarn | bun
deriving DecidableEq, Repr

/-- The literal name of a package manager. -/
def pmStr : PM → String
  | .npm => "npm"
  | .pnpm => "pnpm"
  | .yarn => "yarn"
  | .bun => "bun"

/-- `guessPackageManager`: lower-case every path, then first match wins in
the order pnpm-lock.yaml, yarn.lock, bun.lockb; default npm. -/
def guessPackageManager (paths : List String) : PM :=
  let lower := paths.map jsToLower
  if lower.any (fun p => endsWithL p.data "pnpm-lock.yaml".data) then .pnpm
  else if lower.any (fun p => endsWithL p.data "yarn.lock".data) then .yarn
  else if lower.any (fun p => endsWithL p.data "bun.lockb".data) then .bun
  else .npm

/-- The fixed recognition table of `guessTechFromDeps`, in declaration order.
Each regular expression of the source is translated to the exact predicate it
decides on a whole dependency name (`/^nest(@|js)?/` and `/^@?redux/` are
prefix matches because they are unanchored at the end and their groups are
optional). -/
def techTable : List (String × (String → Bool)) :=
  [("React", fun d => d = "react" || d = "react-dom"),
   ("Next.js", fun d => d = "next"),
   ("Vite", fun d => d = "vite"),
   ("TypeScript", fun d => d = "typescript"),
   ("Tailwind CSS", fun d => d = "tailwindcss"),
   ("Redux", fun d => startsWithL d.data "redux".data || startsWithL d.data "@redux".data),
   ("Zustand", fun d => d = "zustand"),
   ("Axios", fun d => d = "axios"),
   ("Express", fun d => d = "express"),
   ("Fastify", fun d => d = "fastify"),
   ("Koa", fun d => d = "koa"),
   ("NestJS", fun d => startsWithL d.data "nest".data),
   ("Prisma", fun d => d = "prisma"),
   ("Mongoose", fun d => d = "mongoose"),
   ("Drizzle", fun d => d = "drizzle-orm"),
   ("Vitest", fun d => d = "vitest"),
   ("Jest", fun d => d = "jest"),
   ("Playwright", fun d => d = "playwright"),
   ("Cypress", fun d => d = "cypress"),
   ("ESLint", fun d => d = "eslint"),
   ("Prettier", fun d => d = "prettier")]

/-- `guessTechFromDeps`: the labels whose pattern matches some dependency
name, in table order (the insertion order of the `Set` in the source). -/
def guessTechFromDeps (allDeps : List String) : List String :=
  (techTable.filter (fun e => allDeps.any e.2)).map Prod.fst

/-- Substring test, modelling `String.prototype.includes`. -/
def containsSubL (s sub : List Char) : Bool :=
  sub.isPrefixOf s ||
    match s with
    | [] => false
    | _ :: cs => containsSubL cs sub

/-- `scriptHint`: canned description per known script name, else the command
itself truncated to 60 characters with an ellipsis. -/
def scriptHint (name cmd : String) : String :=
  let n := jsToLower name
  if n = "dev" then "Start development server"
  else if n = "start" then "Start application"
  else if n = "build" then "Build production assets"
  else if n = "preview" then "Preview production build locally"
  else if n = "test" then "Run tests"
  else if startsWithL n.data "test:".data then "Run " ++ (⟨n.data.drop 5⟩ : String) ++ " tests"
  else if n = "lint" then "Run linter"
  else if n = "format" then "Format code"
  else if containsSubL n.data "typecheck".data || n = "tsc" then "Type check"
  else if containsSubL n.data "deploy".data then "Deploy project"
  else if containsSubL n.data "serve".data then "Serve app"
  else if cmd.data.length > 60 then (⟨cmd.data.take 57⟩ : String) ++ "..." else cmd

/-! ## Section composer (`buildReadme`, ReadmeGenerator.tsx lines 379-513) -/

/-- `license?: { key, name, spdx_id? }` of the repository record; `spdx_id`
may be absent or null (both `none`). -/
structure LicenseInfo where
  key : String := ""
  name : String := ""
  spdx_id : Option String := none
deriving Repr, DecidableEq

/-- The repository record fields `buildReadme` reads. -/
structure RepoInfo where
  name : String := ""
  full_name : String := ""
  description : Option String := none
  html_url : String := ""
  homepage : Option String := none
  license : Option LicenseInfo := none
  topics : List String := []
  default_branch : String := ""
deriving Repr, DecidableEq

/-- The decoded `package.json` manifest; absent maps are empty lists. -/
structure PackageJson where
  name : Option String := none
  version : Option String := none
  description : Option String := none
  scripts : List (String × String) := []
  dependencies : List (String × String) := []
  devDependencies : List (String × String) := []
  engines : List (String × String) := []
deriving Repr, DecidableEq

/-- The detection flags derived from the repository path list. -/
structure DetectFlags where
  hasDocker : Bool := false
  hasCI : Bool := false
  hasEnvExample : Bool := false
  paths : List String := []
deriving Repr, DecidableEq

/-- The four optional AI-supplied sections. -/
structure AiSections where
  description : Option String := none
  features : Option String := none
  installation : Option String := none
  usage : Option String := none
deriving Repr, DecidableEq

/-- The first parameter block of `buildReadme`. -/
structure BuildParams where
  owner : String
  repo : String
  info : RepoInfo
  languages : List (String × Nat) := []
  pkg : PackageJson := {}
  topics : List String := []

/-- The optional `extras` parameter of `buildReadme`. -/
structure BuildExtras where
  fileTree : Option String := none
  ai : Option AiSections := none
  detect : Option DetectFlags := none
  pm : Option PM := none

/-- `info?.name || repo`. -/
def resolvedRepoName (info : RepoInfo) (repo : String) : String :=
  if info.name = "" then repo else info.name

/-- `info?.license?.spdx_id || info?.license?.name || "N/A"`. -/
def resolvedLicense (info : RepoInfo) : String :=
  jsOrStr (info.license.bind (fun l => l.spdx_id)) (jsOrStr (info.license.map (fun l => l.name)) "N/A")

/-- Association-list lookup for string maps (e.g. `pkg.engines.node`). -/
def lookupS (k : String) : List (String × String) → Option String
  | [] => none
  | (k', v) :: rest => if k' = k then some v else lookupS k rest

/-- `Object.keys({ ...deps, ...devDeps })`: dependency keys in insertion
order, then dev-dependency keys not already present. -/
def allDepsOf (pkg : PackageJson) : List String :=
  let depKeys := pkg.dependencies.map Prod.fst
  depKeys ++ ((pkg.devDependencies.map Prod.fst).filter (fun k => !(depKeys.contains k)))

/-- `script.replace(/^run\s+/, "")`. -/
def stripRunPre (s : String) : String :=
  match s.data with
  | 'r' :: 'u' :: 'n' :: rest =>
    if (rest.takeWhile isWsCh).isEmpty then s else ⟨rest.dropWhile isWsCh⟩
  | _ => s

/-- The per-package-manager script command formatter `pmCmd`. -/
def pmCmd (pm : PM) (script : String) : String :=
  match pm with
  | .pnpm => "pnpm " ++ script
  | .yarn =>
    if script = "run dev" then "yarn dev"
    else if startsWithL script.data "run ".data then "yarn " ++ (⟨script.data.drop 4⟩ : String)
    else "yarn " ++ script
  | .bun => "bun " ++ stripRunPre script
  | .npm => "npm " ++ script

/-- The badge row `badges` (a CI badge is prepended when `hasCI`). -/
def badges (owner repo : String) (hasCI : Bool) : String :=
  let base :=
    ["[![License](https://img.shields.io/github/license/" ++ owner ++ "/" ++ repo ++
       ")](LICENSE)",
     "[![Stars](https://img.shields.io/github/stars/" ++ owner ++ "/" ++ repo ++
       "?style=flat)](https://github.com/" ++ owner ++ "/" ++ repo ++ "/stargazers)",
     "[![Issues](https://img.shields.io/github/issues/" ++ owner ++ "/" ++ repo ++
       ")](https://github.com/" ++ owner ++ "/" ++ repo ++ "/issues)",
     "[![Last Commit](https://img.shields.io/github/last-commit/" ++ owner ++ "/" ++ repo ++
       ")](https://github.com/" ++ owner ++ "/" ++ repo ++ "/commits)"]
  String.intercalate " "
    (if hasCI then
      ("[![CI](https://github.com/" ++ owner ++ "/" ++ repo ++
        "/actions/workflows/ci.yml/badge.svg)](https://github.com/" ++ owner ++ "/" ++ repo ++
        "/actions)") :: base
     else base)

/-- The table of contents `toc`: fixed entries plus the conditionally present
ones, empty strings filtered out (`filter(Boolean)`). -/
def toc (featGate : Bool) (stack topLangs : List String) (aiUsage : Option String)
    (hasDocker : Bool) (fileTree : String) : String :=
  String.intercalate "\n"
    ((["- [About](#about)",
       if featGate then "- [Features](#features)" else "",
       if !stack.isEmpty then "- [Tech Stack](#tech-stack)" else "",
       if !topLangs.isEmpty then "- [Languages](#languages)" else "",
       "- [Getting Started](#getting-started)",
       "- [Scripts](#scripts)",
       "- [Configuration](#configuration)",
       if truthyS aiUsage then "- [Usage](#usage)" else "",
       if hasDocker then "- [Docker](#docker)" else "",
       if fileTree ≠ "" then "- [Folder Structure](#folder-structure)" else "",
       "- [Contributing](#contributing)",
       "- [Roadmap](#roadmap)",
       "- [Security](#security)",
       "- [License](#license)",
       "- [Acknowledgements](#acknowledgements)",
       "- [FAQ](#faq)"]).filter (fun s => s ≠ ""))

/-- The `features` text: the AI text when truthy, else a topics bullet list,
else the three generic placeholder bullets. -/
def featuresText (aiFeatures : Option String) (topics : List String) : String :=
  jsOrStr aiFeatures
    (if !topics.isEmpty then String.intercalate "\n" (topics.map (fun t => "- " ++ t))
     else "- Production-ready structure\n- DX-focused tooling\n- Extensible configuration")

/-- `info?.homepage ? "\n- Homepage: ..." : ""`. -/
def homepageLine (homepage : Option String) : String :=
  if truthyS homepage then "\n- Homepage: " ++ jsOrStr homepage "" else ""

/-- `.replace(/\n/g, "\n> ")` on a character list. -/
def replNLgt : List Char → List Char
  | [] => []
  | '\n' :: rest => '\n' :: '>' :: ' ' :: replNLgt rest
  | c :: rest => c :: replNLgt rest

/-- The block-quoted description: the AI description (each line re-prefixed
with the quote marker) when truthy, else the base description when
non-empty, else nothing. -/
def descriptionBlock (aiDesc : Option String) (baseDescription : String) : String :=
  if truthyS aiDesc then "> " ++ (⟨replNLgt (jsOrStr aiDesc "").data⟩ : String) ++ "\n\n"
  else if baseDescription ≠ "" then "> " ++ baseDescription ++ "\n\n" else ""

/-- The script table rows, or the placeholder row when there are none. -/
def scriptRows (scripts : List (String × String)) : String :=
  jsOrStr
    (some (String.intercalate "\n"
      (scripts.map (fun nc =>
        "| " ++ nc.1 ++ " | `" ++ nc.2 ++ "` | " ++ scriptHint nc.1 nc.2 ++ " |"))))
    "| - | - | - |"

/-- The installation block: the AI text when truthy, else the canned
clone-and-install commands. -/
def installationBlock (aiInst : Option String) (owner repo repoName : String) (pm : PM) :
    String :=
  if truthyS aiInst then jsOrStr aiInst "" ++ "\n\n"
  else
    "```bash\n# Clone the repo\ngit clone https://github.com/" ++ owner ++ "/" ++ repo ++
      ".git\ncd " ++ repoName ++ "\n\n# Install dependencies\n" ++ pmCmd pm "install" ++
      "\n```\n\n"

/-- The canned dev/build command block. -/
def runBlock (pm : PM) : String :=
  "```bash\n# Start dev server\n" ++ pmCmd pm "run dev" ++ "\n\n# Build for production\n" ++
    pmCmd pm "run build" ++ "\n```\n"

/-- The Languages section (omitted when no language was reported). -/
def languagesBlock (topLangs : List String) (langLines : String) : String :=
  if !topLangs.isEmpty then "## Languages\n\n" ++ jsOrStr (some langLines) "- N/A" ++ "\n\n"
  else ""

/-- The Tech Stack section (omitted when the inferencer found nothing). -/
def techStackBlock (stack : List String) : String :=
  if !stack.isEmpty then
    "## Tech Stack\n\n" ++ String.intercalate "\n" (stack.map (fun s => "- " ++ s)) ++ "\n\n"
  else ""

/-- A dependency bullet list capped at 50 entries. -/
def depsList (deps : List (String × String)) : String :=
  String.intercalate "\n" ((deps.map (fun kv => "- " ++ kv.1 ++ " " ++ kv.2)).take 50)

/-- The Configuration section (the env-example snippet is conditional). -/
def configurationBlock (hasEnvExample : Bool) : String :=
  "## Configuration\n\n" ++
    (if hasEnvExample then
      "Copy the example environment file and adjust values as needed:\n\n```bash\ncp .env.example .env\n```\n\n"
     else "") ++
    "Common variables you may need (examples, edit for your project):\n\n```env\nNODE_ENV=development\nPORT=3000\nAPI_BASE_URL=http://localhost:3000\n```\n\n"

/-- The Usage section: AI-supplied only, omitted entirely when absent. -/
def usageBlock (aiUsage : Option String) : String :=
  if truthyS aiUsage then "## Usage\n\n" ++ jsOrStr aiUsage "" ++ "\n\n" else ""

/-- The Docker image tag:
`repoName.toLowerCase().replace(/[^a-z0-9-]/g, "-")` — each character
outside `[a-z0-9-]` is replaced by one hyphen. -/
def dockerImageTag (repoName : String) : String :=
  ⟨(toLowerL repoName.data).map
    (fun c => if ('a' ≤ c ∧ c ≤ 'z') ∨ ('0' ≤ c ∧ c ≤ '9') ∨ c = '-' then c else '-')⟩

/-- The Docker section, present exactly when `detect.hasDocker`. -/
def dockerBlock (hasDocker : Bool) (repoName : String) : String :=
  if hasDocker then
    "## Docker\n\nBuild and run with Docker:\n\n```bash\n# Build image\ndocker build -t " ++
      dockerImageTag repoName ++ ":latest .\n\n# Run container\ndocker run -p 3000:3000 " ++
      dockerImageTag repoName ++ ":latest\n```\n\n"
  else ""

/-- The Folder Structure section (omitted when there is no tree text). -/
def structureBlock (fileTree : String) : String :=
  if fileTree ≠ "" then "## Folder Structure\n\n```text\n" ++ fileTree ++ "\n```\n\n" else ""

/-- Fixed Roadmap section. -/
def roadmapBlock : String :=
  "## Roadmap\n\n- [ ] Add more generators\n- [ ] Improve prompts and templates\n- [ ] Add export formats (PDF/HTML)\n\n"

/-- Fixed Contributing section. -/
def contributingBlock : String :=
  "## Contributing\n\nContributions are welcome! Please open an issue or submit a pull request.\n\n1. Fork the Project\n2. Create your Feature Branch (`git checkout -b feature/AmazingFeature`)\n3. Commit your Changes (`git commit -m \x27Add some AmazingFeature\x27`)\n4. Push to the Branch (`git push origin feature/AmazingFeature`)\n5. Open a Pull Request\n\n"

/-- Fixed Security section. -/
def securityBlock : String :=
  "## Security\n\nIf you discover a vulnerability, please open a private issue or contact the maintainers.\nNever commit real secrets. Rotate any exposed credentials immediately.\n\n"

/-- Fixed Acknowledgements section. -/
def acknowledgementsBlock : String :=
  "## Acknowledgements\n\n- GitHub API\n- shadcn/ui\n- Tailwind CSS\n- Supabase Edge Functions\n\n"

/-- Fixed FAQ section. -/
def faqBlock : String :=
  "## FAQ\n\n- Why are some sections generic?\n  - The generator infers content from repository metadata. Add topics, scripts, and a .env.example to improve results.\n- How do I change package manager commands?\n  - The generator tries to detect lockfiles. Adjust commands if needed.\n\n"

/-- The engine note of the Prerequisites line. -/
def enginesNote (engines : List (String × String)) : String :=
  if truthyS (lookupS "node" engines) then
    " (project specifies " ++ jsOrStr (lookupS "node" engines) "" ++ ")"
  else ""

/-- `extras?.fileTree || ""`. -/
def fileTreeOf (extras : Option BuildExtras) : String :=
  jsOrStr (extras.bind (fun e => e.fileTree)) ""

/-- `extras?.ai || null`. -/
def aiOf (extras : Option BuildExtras) : Option AiSections :=
  extras.bind (fun e => e.ai)

/-- `extras?.detect || { hasDocker: false, hasCI: false, hasEnvExample: false, paths: [] }`. -/
def detectOf (extras : Option BuildExtras) : DetectFlags :=
  (extras.bind (fun e => e.detect)).getD {}

/-- `extras?.pm || "npm"`. -/
def pmOf (extras : Option BuildExtras) : PM :=
  (extras.bind (fun e => e.pm)).getD PM.npm

/-- `(info?.description || pkg?.description || "").trim()`. -/
def baseDescOf (params : BuildParams) : String :=
  jsTrim (jsOrStr params.info.description (jsOrStr params.pkg.description ""))

/-- The inferred tech stack of the merged dependency names. -/
def stackOf (params : BuildParams) : List String :=
  guessTechFromDeps (allDepsOf params.pkg)

/-- The gate for the Features section and its table-of-contents entry:
`ai?.features || topics.length || stack.length`. -/
def featGateOf (aiFeatures : Option String) (topics stack : List String) : Bool :=
  truthyS aiFeatures || !topics.isEmpty || !stack.isEmpty

/-- The Features section (gated; text from `featuresText`). -/
def featuresSection (aiFeatures : Option String) (topics stack : List String) : String :=
  if featGateOf aiFeatures topics stack then
    "## Features\n\n" ++ featuresText aiFeatures topics ++ "\n\n"
  else ""

/-- The Dependencies section (omitted when the list is empty). -/
def depsSection (deps : List (String × String)) : String :=
  if depsList deps ≠ "" then "### Dependencies\n\n" ++ depsList deps ++ "\n\n" else ""

/-- The Dev Dependencies section (omitted when the list is empty). -/
def devDepsSection (deps : List (String × String)) : String :=
  if depsList deps ≠ "" then "### Dev Dependencies\n\n" ++ depsList deps ++ "\n\n" else ""

/-- `buildReadme`: the full deterministic Markdown assembly, in the source's
template order. -/
def buildReadme (params : BuildParams) (extras : Option BuildExtras) : String :=
  "# " ++ resolvedRepoName params.info params.repo ++ "\n\n" ++
    badges params.owner params.repo (detectOf extras).hasCI ++ "\n\n" ++
    descriptionBlock ((aiOf extras).bind (fun a => a.description)) (baseDescOf params) ++
    "## About\n\n- Repository: https://github.com/" ++ params.owner ++ "/" ++ params.repo ++
    homepageLine params.info.homepage ++ "\n- Default branch: `" ++
    params.info.default_branch ++ "`\n- License: `" ++ resolvedLicense params.info ++
    "`\n\n## Table of Contents\n\n" ++
    toc (featGateOf ((aiOf extras).bind (fun a => a.features)) params.topics (stackOf params))
      (stackOf params) (languagesSummary params.languages).2
      ((aiOf extras).bind (fun a => a.usage)) (detectOf extras).hasDocker (fileTreeOf extras) ++
    "\n\n" ++
    featuresSection ((aiOf extras).bind (fun a => a.features)) params.topics (stackOf params) ++
    techStackBlock (stackOf params) ++
    languagesBlock (languagesSummary params.languages).2 (languagesSummary params.languages).1 ++
    "## Getting Started\n\n### Prerequisites\n\n- Node.js (recommended LTS)" ++
    enginesNote params.pkg.engines ++ "\n- " ++ jsToUpper (pmStr (pmOf extras)) ++
    " (or adjust commands for your package manager)\n\n### Installation\n\n" ++
    installationBlock ((aiOf extras).bind (fun a => a.installation)) params.owner params.repo
      (resolvedRepoName params.info params.repo) (pmOf extras) ++
    "### Running Locally\n\n" ++ runBlock (pmOf extras) ++
    "## Scripts\n\n| Script | Command | Description |\n|---|---|---|\n" ++
    scriptRows params.pkg.scripts ++ "\n\n" ++
    depsSection params.pkg.dependencies ++ devDepsSection params.pkg.devDependencies ++
    configurationBlock (detectOf extras).hasEnvExample ++
    usageBlock ((aiOf extras).bind (fun a => a.usage)) ++
    dockerBlock (detectOf extras).hasDocker (resolvedRepoName params.info params.repo) ++
    structureBlock (fileTreeOf extras) ++
    contributingBlock ++ roadmapBlock ++ securityBlock ++
    "## License\n\nDistributed under the " ++ resolvedLicense params.info ++
    " License. See `LICENSE` for more information.\n\n" ++
    acknowledgementsBlock ++ faqBlock ++ "---\n\n> Generated with README Generator.\n"

/-! ## LLM relay (supabase/functions/generate-readme/index.ts) -/

/-- JSON values, as produced by a successful `JSON.parse` (object keys are
already de-duplicated, string data is a character list). -/
inductive Json where
  | null
  | bool (b : Bool)
  | num (q : ℚ)
  | str (s : List Char)
  | arr (elems : List Json)
  | obj (fields : List (List Char × Json))

/-- The four optional section texts the relay returns. -/
structure Sections where
  description : Option (List Char) := none
  features : Option (List Char) := none
  installation : Option (List Char) := none
  usage : Option (List Char) := none
deriving DecidableEq

/-- `sanitizeStr`: non-strings are dropped (`undefined`), strings are trimmed
and capped at 12,000 characters (`s.length > 12000 ? s.slice(0, 12000) : s`).
The argument is the result of a JavaScript property read (`none` =
`undefined`). -/
def sanitizeStr (v : Option Json) : Option (List Char) :=
  match v with
  | some (.str s) =>
    some (if (trimL s).length > 12000 then (trimL s).take 12000 else trimL s)
  | _ => none

/-- `takeLines(str, maxLines)`: split on `/\r?\n/`, keep the first
`maxLines` lines, re-join with a newline. `splitLinesL` is the split. -/
def splitLinesL : List Char → List (List Char)
  | [] => [[]]
  | '\r' :: '\n' :: rest => [] :: splitLinesL rest
  | '\n' :: rest => [] :: splitLinesL rest
  | c :: rest =>
    match splitLinesL rest with
    | [] => [[c]]
    | h :: t => (c :: h) :: t

/-- `takeLines` on character lists. -/
def takeLines (s : List Char) (maxLines : Nat) : List Char :=
  List.intercalate ['\n'] ((splitLinesL s).take maxLines)

/-- The lookahead `(?=##\s+)` of the section splitter: two hashes followed by
at least one whitespace character. -/
def isSecStart : List Char → Bool
  | '#' :: '#' :: c :: _ => isWsCh c
  | _ => false

/-- `markdown.split(/\n(?=##\s+)/g)`: break before every `##`-heading that
follows a newline (the newline is consumed as the separator). -/
def splitSecs : List Char → List (List Char)
  | [] => [[]]
  | '\n' :: rest =>
    if isSecStart rest then [] :: splitSecs rest
    else
      match splitSecs rest with
      | [] => [['\n']]
      | h :: t => ('\n' :: h) :: t
  | c :: rest =>
    match splitSecs rest with
    | [] => [[c]]
    | h :: t => (c :: h) :: t

/-- Backtracking for `^##\s+([^\n]+)\n([\s\S]*)$` after the two hashes: try
the whitespace run `\s+` from longest (`n` characters) down to one; for each
length the title is the greedy non-newline run, which must be non-empty and
be followed by a newline.  Returns (title, body) for the first length that
matches, as a backtracking regex engine does. -/
def tryWsLen : Nat → List Char → Option (List Char × List Char)
  | 0, _ => none
  | n + 1, s =>
    let after := s.drop (n + 1)
    let title := after.takeWhile (fun c => c ≠ '\n')
    if title.isEmpty then tryWsLen n s
    else
      match after.drop title.length with
      | '\n' :: body => some (title, body)
      | _ => tryWsLen n s

/-- The per-section match `sec.match(/^##\s+([^\n]+)\n([\s\S]*)$/)`. -/
def matchSec (s : List Char) : Option (List Char × List Char) :=
  match s with
  | '#' :: '#' :: rest => tryWsLen (rest.takeWhile isWsCh).length rest
  | _ => none

/-- One loop iteration of `parseSections`: a non-matching chunk is skipped;
otherwise the title is trimmed and lower-cased and the trimmed body capped at
400 lines is stored under the recognized key (later sections overwrite
earlier ones). -/
def applySec (r : Sections) (sec : List Char) : Sections :=
  match matchSec sec with
  | none => r
  | some (title, body) =>
    let t := toLowerL (trimL title)
    let content := takeLines (trimL body) 400
    if startsWithL t "project description".data || startsWithL t "description".data then
      { r with description := some content }
    else if startsWithL t "features".data then { r with features := some content }
    else if startsWithL t "installation".data then { r with installation := some content }
    else if startsWithL t "usage".data then { r with usage := some content }
    else r

/-- `parseSections`: the Markdown-heading fallback parser. -/
def parseSections (markdown : List Char) : Sections :=
  (splitSecs markdown).foldl applySec {}

/-- A JavaScript property read `j[k]` on a parsed JSON value that is not
`null` (`undefined` → `none`); object keys are unique after `JSON.parse`. -/
def jsPropD (j : Json) (k : List Char) : Option Json :=
  match j with
  | .obj kvs => lookupJ k kvs
  | _ => none
where lookupJ (k : List Char) : List (List Char × Json) → Option Json
  | [] => none
  | (k', v) :: rest => if k' = k then some v else lookupJ k rest

/-- The strict-JSON branch of the reply handling: reading the four properties
off `null` throws a `TypeError` (→ `none`, caught by the surrounding
`catch`); for any other parsed value the four fields are read and
sanitized. -/
def jsonPathSections (j : Json) : Option Sections :=
  match j with
  | .null => none
  | _ =>
    some
      { description := sanitizeStr (jsPropD j "description".data)
        features := sanitizeStr (jsPropD j "features".data)
        installation := sanitizeStr (jsPropD j "installation".data)
        usage := sanitizeStr (jsPropD j "usage".data) }

/-- The reply-to-sections step of the handler: `parsed` is the outcome of
`JSON.parse(content)` (`none` = the parse threw).  A parse failure, or the
`TypeError` thrown by the property reads on `null`, lands in the `catch`
branch running `parseSections(content)`. -/
def sectionsOfContent (parsed : Option Json) (content : List Char) : Sections :=
  match parsed with
  | none => parseSections content
  | some j =>
    match jsonPathSections j with
    | some s => s
    | none => parseSections content

/-- Whether the Markdown fallback parser runs for a given parse outcome. -/
def fallbackUsed : Option Json → Bool
  | none => true
  | some j => (jsonPathSections j).isNone

/-- The caller payload fields the handler validates (`owner`/`repo`; the
empty list doubles for an absent field, both being falsy). -/
structure Payload where
  owner : List Char := []
  repo : List Char := []
deriving DecidableEq

/-- The provider call outcome visible to the handler: `ok`/`status`/body
text, and the extracted completion content
(`data?.choices?.[0]?.message?.content`, `none` when missing). -/
structure ProviderResp where
  ok : Bool := true
  status : Nat := 200
  text : List Char := []
  content : Option (List Char) := none
deriving DecidableEq

/-- One incoming request as the handler observes it: the HTTP method, the
`OPENAI_API_KEY` environment value, the parsed request body (`none` = the
body was not valid JSON), the provider response, and the outcome of
`JSON.parse` on the completion content (`none` = the parse threw). -/
structure RelayReq where
  method : String := "POST"
  apiKey : Option (List Char) := some "k".data
  body : Option Payload := some {}
  provider : ProviderResp := {}
  parsed : Option Json := none

/-- The response bodies the handler produces: the plain `"ok"` preflight
body, a JSON error object `{ error }`, or the success object
`{ success: true, sections, raw }`. -/
inductive RespBody where
  | plain (s : List Char)
  | errJson (msg : List Char)
  | success (sections : Sections) (raw : List Char)

/-- The `serve` handler of the relay: status code and body for one request,
mirroring the source's control flow order (preflight, method check,
credential check, body parse, required fields, provider failure, reply
normalization). -/
def handler (r : RelayReq) : Nat × RespBody :=
  if r.method = "OPTIONS" then (200, .plain "ok".data)
  else if r.method ≠ "POST" then (405, .errJson "Method not allowed".data)
  else
    match r.apiKey with
    | none => (500, .errJson "Missing OPENAI_API_KEY. Add it as a secret for this function.".data)
    | some key =>
      if key.isEmpty then
        (500, .errJson "Missing OPENAI_API_KEY. Add it as a secret for this function.".data)
      else
        match r.body with
        | none => (400, .errJson "Invalid JSON body".data)
        | some b =>
          if b.owner.isEmpty || b.repo.isEmpty then
            (400, .errJson "owner and repo are required".data)
          else if !r.provider.ok then
            (500, .errJson ("OpenAI error ".data ++ (toString r.provider.status).data ++
              ": ".data ++ r.provider.text))
          else
            let content := (r.provider.content.map trimL).getD []
            (200, .success (sectionsOfContent r.parsed content) content)

/-! ## Statement-level helper definitions -/

/-- `sub` occurs contiguously inside `s`. -/
def containsStr (s sub : String) : Prop := ∃ p q, s = p ++ sub ++ q

/-- Modelled from the spec (claim C3): the repository name lower-cased with
every run of non-alphanumeric characters collapsed to a single hyphen.  Used
only for comparison against the source's `dockerImageTag`. -/
def collapseRunsGo (pending : Bool) : List Char → List Char
  | [] => if pending then ['-'] else []
  | c :: rest =>
    if ('a' ≤ c ∧ c ≤ 'z') ∨ ('0' ≤ c ∧ c ≤ '9') then
      if pending then '-' :: c :: collapseRunsGo false rest else c :: collapseRunsGo false rest
    else collapseRunsGo true rest

/-- Modelled from the spec (claim C3): the collapsed-runs tag. -/
def collapseSpecTag (repoName : String) : String :=
  ⟨collapseRunsGo false (toLowerL repoName.data)⟩

/-! ## Supporting lemmas -/

theorem insertS_perm (lt : α → α → Bool) (x : α) (l : List α) :
    (insertS lt x l).Perm (x :: l) := by
  induction l with
  | nil => simp [insertS]
  | cons y ys ih =>
    simp only [insertS]
    split
    · exact List.Perm.refl _
    · exact (ih.cons y).trans (List.Perm.swap x y ys)

theorem mem_insertS (lt : α → α → Bool) (x a : α) (l : List α) :
    a ∈ insertS lt x l ↔ a = x ∨ a ∈ l := by
  rw [(insertS_perm lt x l).mem_iff, List.mem_cons]

theorem sortS_perm (lt : α → α → Bool) (l : List α) : (sortS lt l).Perm l := by
  suffices h : ∀ acc, ((l.foldl (fun acc x => insertS lt x acc) acc)).Perm (acc ++ l) by
    simpa using h []
  induction l with
  | nil => simp
  | cons y ys ih =>
    intro acc
    simp only [List.foldl_cons]
    refine (ih (insertS lt y acc)).trans ?_
    refine ((insertS_perm lt y acc).append_right ys).trans ?_
    exact List.perm_middle.symm

theorem mem_sortS (lt : α → α → Bool) (a : α) (l : List α) :
    a ∈ sortS lt l ↔ a ∈ l :=
  (sortS_perm lt l).mem_iff

theorem insertS_pairwise (lt : α → α → Bool)
    (hasymm : ∀ a b, lt a b = true → lt b a = false)
    (htrans : ∀ a b c, lt a b = true → lt b c = true → lt a c = true)
    (x : α) (l : List α) (h : l.Pairwise (fun a b => lt b a = false)) :
    (insertS lt x l).Pairwise (fun a b => lt b a = false) := by
  induction l with
  | nil => simp [insertS]
  | cons y ys ih =>
    rcases List.pairwise_cons.mp h with ⟨hy, hys⟩
    simp only [insertS]
    split
    · rename_i hxy
      refine List.pairwise_cons.mpr ⟨?_, h⟩
      intro z hz
      rcases List.mem_cons.mp hz with rfl | hz
      · exact hasymm x z hxy
      · rcases Bool.eq_false_or_eq_true (lt z x) with hzx | hzx
        · exfalso
          have := htrans z x y hzx hxy
          rw [hy z hz] at this
          exact Bool.false_ne_true this
        · exact hzx
    · rename_i hxy
      refine List.pairwise_cons.mpr ⟨?_, ih hys⟩
      intro z hz
      rcases (mem_insertS lt x z ys).mp hz with rfl | hz
      · exact Bool.not_eq_true _ |>.mp hxy
      · exact hy z hz

theorem sortS_pairwise (lt : α → α → Bool)
    (hasymm : ∀ a b, lt a b = true → lt b a = false)
    (htrans : ∀ a b c, lt a b = true → lt b c = true → lt a c = true)
    (l : List α) : (sortS lt l).Pairwise (fun a b => lt b a = false) := by
  suffices h : ∀ acc, acc.Pairwise (fun a b => lt b a = false) →
      (l.foldl (fun acc x => insertS lt x acc) acc).Pairwise (fun a b => lt b a = false) by
    exact h [] (by simp)
  induction l with
  | nil => intro acc hacc; simpa using hacc
  | cons y ys ih =>
    intro acc hacc
    simp only [List.foldl_cons]
    exact ih _ (insertS_pairwise lt hasymm htrans y acc hacc)

theorem treeSize_cons (n : String) (node : JNode) (rest : List (String × JNode)) :
    treeSize ((n, node) :: rest) = 1 + treeSize node.children + treeSize rest := by
  cases node
  simp [treeSize, JNode.children]

theorem treeSize_pos_of_ne_nil {m : List (String × JNode)} (h : m ≠ []) :
    1 ≤ treeSize m := by
  rcases m with _ | ⟨⟨n, node⟩, rest⟩
  · exact absurd rfl h
  · rw [treeSize_cons]
    omega

theorem renderFuel_nil (fuel : Nat) (pre : String) : renderFuel fuel [] pre = [] := by
  cases fuel <;> rfl

theorem treeSize_perm {m₁ m₂ : List (String × JNode)} (h : m₁.Perm m₂) :
    treeSize m₁ = treeSize m₂ := by
  induction h with
  | nil => rfl
  | cons x _ ih =>
    rcases x with ⟨n, node⟩
    rw [treeSize_cons, treeSize_cons, ih]
  | swap x y l =>
    rcases x with ⟨n, node⟩
    rcases y with ⟨n', node'⟩
    rw [treeSize_cons, treeSize_cons, treeSize_cons, treeSize_cons]
    omega
  | trans _ _ ih1 ih2 => omega

theorem treeSize_filter_le (p : String × JNode → Bool) (m : List (String × JNode)) :
    treeSize (m.filter p) ≤ treeSize m := by
  induction m with
  | nil => simp
  | cons e rest ih =>
    rcases e with ⟨n, node⟩
    rw [List.filter_cons]
    split
    · rw [treeSize_cons, treeSize_cons]; omega
    · rw [treeSize_cons]; omega

theorem treeSize_children_lt_of_mem {n : String} {node : JNode}
    {m : List (String × JNode)} (h : (n, node) ∈ m) :
    treeSize node.children < treeSize m := by
  induction m with
  | nil => simp at h
  | cons e rest ih =>
    rcases e with ⟨n', node'⟩
    rw [treeSize_cons]
    rcases List.mem_cons.mp h with he | he
    · rw [Prod.mk.injEq] at he
      obtain ⟨rfl, rfl⟩ := he
      omega
    · have := ih he
      omega

theorem mem_visibleEntries {e : String × JNode} {m : List (String × JNode)}
    (h : e ∈ visibleEntries m) : e ∈ m := by
  have h1 := (mem_sortS _ e _).mp h
  exact List.mem_of_mem_filter h1

theorem renderRows_congr (rec₁ rec₂ : List (String × JNode) → String → List String)
    (l : List (String × JNode)) (pre : String) (n : Nat) :
    ∀ idx, (∀ e ∈ l, ∀ p, rec₁ e.2.children p = rec₂ e.2.children p) →
      renderRows rec₁ l pre idx n = renderRows rec₂ l pre idx n := by
  induction l with
  | nil => intro idx h; rfl
  | cons e rest ih =>
    intro idx h
    rcases e with ⟨name, node⟩
    simp only [renderRows]
    rw [ih (idx + 1) (fun e he p => h e (List.mem_cons_of_mem _ he) p)]
    have hn : ∀ p, rec₁ node.children p = rec₂ node.children p :=
      fun p => h (name, node) (List.mem_cons_self _ _) p
    simp only [hn]

theorem renderFuel_adequate : ∀ (s : Nat) (m : List (String × JNode)), treeSize m ≤ s →
    ∀ f₁ f₂ pre, treeSize m ≤ f₁ → treeSize m ≤ f₂ →
      renderFuel f₁ m pre = renderFuel f₂ m pre := by
  intro s
  induction s using Nat.strong_induction_on with
  | _ s ih =>
    intro m hms f₁ f₂ pre h₁ h₂
    rcases eq_or_ne m [] with rfl | hne
    · rw [renderFuel_nil, renderFuel_nil]
    have hpos := treeSize_pos_of_ne_nil hne
    rcases f₁ with _ | f₁
    · omega
    rcases f₂ with _ | f₂
    · omega
    simp only [renderFuel]
    apply renderRows_congr
    intro e he p
    rcases e with ⟨name, node⟩
    have hmem : (name, node) ∈ m := mem_visibleEntries he
    have hlt : treeSize node.children < treeSize m := treeSize_children_lt_of_mem hmem
    exact ih (treeSize node.children) (by omega) node.children le_rfl f₁ f₂ p (by omega) (by omega)

theorem render_eq_renderFuel (m : List (String × JNode)) (pre : String) (fuel : Nat)
    (h : treeSize m ≤ fuel) : render m pre = renderFuel fuel m pre :=
  renderFuel_adequate (treeSize m) m le_rfl (treeSize m) fuel pre le_rfl h

theorem treeSize_append (m₁ m₂ : List (String × JNode)) :
    treeSize (m₁ ++ m₂) = treeSize m₁ + treeSize m₂ := by
  induction m₁ with
  | nil => simp [treeSize]
  | cons e rest ih =>
    rcases e with ⟨n, node⟩
    rw [List.cons_append, treeSize_cons, treeSize_cons, ih]
    omega

theorem treeSize_alistSet (p : String) (t : String) (c' : List (String × JNode)) :
    ∀ (m : List (String × JNode)) (node : JNode), alistFind p m = some node →
      treeSize (alistSet p (JNode.mk t c') m) + treeSize node.children =
        treeSize m + treeSize c' := by
  intro m
  induction m with
  | nil => intro node h; simp [alistFind] at h
  | cons e rest ih =>
    intro node h
    rcases e with ⟨k, v⟩
    simp only [alistFind] at h
    simp only [alistSet]
    by_cases hk : k = p
    · rw [if_pos hk] at h ⊢
      obtain rfl : v = node := Option.some.inj h
      rw [treeSize_cons, treeSize_cons]
      simp only [JNode.children]
      omega
    · rw [if_neg hk] at h ⊢
      rw [treeSize_cons, treeSize_cons]
      have := ih node h
      omega

theorem treeSize_insertSegs_le :
    ∀ (parts : List String) (m : List (String × JNode)) (ty : String),
      treeSize (insertSegs m parts ty) ≤ treeSize m + parts.length := by
  intro parts
  induction parts with
  | nil => intro m ty; simp [insertSegs]
  | cons p rest ih =>
    intro m ty
    simp only [insertSegs]
    rcases hf : alistFind p m with _ | node <;> dsimp only
    · rw [treeSize_append, treeSize_cons]
      simp only [JNode.children]
      have h1 := ih [] ty
      simp only [treeSize, List.length_nil, Nat.zero_add] at h1
      simp only [treeSize, List.length_cons]
      omega
    · have heq2 := treeSize_alistSet p node.ty (insertSegs node.children rest ty) m node hf
      have h1 := ih node.children ty
      simp only [List.length_cons]
      omega

theorem treeSize_buildTree_le (items : List GitTreeItem) :
    treeSize (buildTree items) ≤ pathSegFuel items := by
  suffices h : ∀ acc, treeSize (items.foldl
      (fun root it => insertSegs root (splitPath it.path) it.ty) acc) ≤
        treeSize acc + (items.map (fun it => (splitPath it.path).length)).sum by
    simpa [buildTree, pathSegFuel, treeSize] using h []
  induction items with
  | nil => intro acc; simp
  | cons it rest ih =>
    intro acc
    simp only [List.foldl_cons, List.map_cons, List.sum_cons]
    have h1 := ih (insertSegs acc (splitPath it.path) it.ty)
    have h2 := treeSize_insertSegs_le (splitPath it.path) acc it.ty
    omega

theorem formatFileTreeLines_eq_render (items : List GitTreeItem) :
    formatFileTreeLines items = (render (buildTree items) "").take 300 := by
  rw [formatFileTreeLines,
    render_eq_renderFuel (buildTree items) "" (pathSegFuel items) (treeSize_buildTree_le items)]

theorem strCmpL_swap (a b : List Char) : strCmpL b a = (strCmpL a b).swap := by
  induction a generalizing b with
  | nil => cases b <;> rfl
  | cons x xs ih =>
    cases b with
    | nil => rfl
    | cons y ys =>
      simp only [strCmpL]
      rcases lt_trichotomy x y with hxy | rfl | hxy
      · simp [hxy, lt_asymm hxy, Ordering.swap]
      · simp [lt_irrefl, ih ys]
      · simp [hxy, lt_asymm hxy, Ordering.swap]

theorem strCmpL_eq_iff (a b : List Char) : strCmpL a b = .eq ↔ a = b := by
  induction a generalizing b with
  | nil => cases b <;> simp [strCmpL]
  | cons x xs ih =>
    cases b with
    | nil => simp [strCmpL]
    | cons y ys =>
      simp only [strCmpL]
      rcases lt_trichotomy x y with hxy | rfl | hxy
      · simp [hxy, ne_of_lt hxy]
      · simp [lt_irrefl, ih ys]
      · simp [hxy, lt_asymm hxy, (ne_of_lt hxy).symm]

theorem strCmpL_lt_trans {a b c : List Char} (hab : strCmpL a b = .lt)
    (hbc : strCmpL b c = .lt) : strCmpL a c = .lt := by
  induction a generalizing b c with
  | nil =>
    cases b with
    | nil => exact absurd hab (by simp [strCmpL])
    | cons y ys =>
      cases c with
      | nil => exact absurd hbc (by simp [strCmpL])
      | cons z zs => simp [strCmpL]
  | cons x xs ih =>
    cases b with
    | nil => exact absurd hab (by simp [strCmpL])
    | cons y ys =>
      cases c with
      | nil => exact absurd hbc (by simp [strCmpL])
      | cons z zs =>
        simp only [strCmpL] at hab hbc ⊢
        rcases lt_trichotomy x y with hxy | rfl | hxy
        · rcases lt_trichotomy y z with hyz | rfl | hyz
          · simp [lt_trans hxy hyz]
          · simp [hxy]
          · simp [hyz, lt_asymm hyz] at hbc
        · rcases lt_trichotomy x z with hxz | rfl | hxz
          · simp [hxz]
          · simp [lt_irrefl] at hab hbc ⊢
            exact ih hab hbc
          · simp [hxz, lt_asymm hxz] at hbc
        · simp [hxy, lt_asymm hxy] at hab

theorem localeCmp_lt_iff (a b : String) :
    localeCmp a b = .lt ↔
      strCmpL (toLowerL a.data) (toLowerL b.data) = .lt ∨
        (toLowerL a.data = toLowerL b.data ∧ strCmpL b.data a.data = .lt) := by
  rcases h : strCmpL (toLowerL a.data) (toLowerL b.data) with _ | _ | _
  · simp [localeCmp, h, Ordering.then]
  · simp [localeCmp, h, Ordering.then, (strCmpL_eq_iff _ _).mp h,
      (strCmpL_eq_iff (toLowerL b.data) (toLowerL b.data)).mpr rfl]
  · simp only [localeCmp, h, Ordering.then]
    constructor
    · intro hc
      exact absurd hc (by simp)
    · rintro (hc | ⟨hc, _⟩)
      · exact absurd hc (by simp)
      · have := (strCmpL_eq_iff (toLowerL a.data) (toLowerL b.data)).mpr hc
        rw [this] at h
        exact absurd h (by simp)

theorem localeCmp_asymm {a b : String} (h : localeCmp a b = .lt) :
    localeCmp b a ≠ .lt := by
  intro hc
  rw [localeCmp_lt_iff] at h hc
  rcases h with h | ⟨he, ho⟩ <;> rcases hc with hc | ⟨hce, hco⟩
  · rw [strCmpL_swap, h] at hc
    exact absurd hc (by simp [Ordering.swap])
  · rw [hce] at h
    rw [(strCmpL_eq_iff _ _).mpr rfl] at h
    exact absurd h (by simp)
  · rw [← he] at hc
    rw [(strCmpL_eq_iff _ _).mpr rfl] at hc
    exact absurd hc (by simp)
  · rw [strCmpL_swap, ho] at hco
    exact absurd hco (by simp [Ordering.swap])

theorem localeCmp_lt_trans {a b c : String} (hab : localeCmp a b = .lt)
    (hbc : localeCmp b c = .lt) : localeCmp a c = .lt := by
  rw [localeCmp_lt_iff] at hab hbc ⊢
  rcases hab with hab | ⟨habe, habo⟩ <;> rcases hbc with hbc | ⟨hbce, hbco⟩
  · exact Or.inl (strCmpL_lt_trans hab hbc)
  · exact Or.inl (by rw [← hbce]; exact hab)
  · exact Or.inl (by rw [habe]; exact hbc)
  · exact Or.inr ⟨habe.trans hbce, strCmpL_lt_trans hbco habo⟩

theorem renderRows_line_shape
    (rec : List (String × JNode) → String → List String)
    (hrec : ∀ m p line, line ∈ rec m p → ∃ pr c nm,
      line = pr ++ c ++ nm ∧ skipDirs.contains nm = false ∧ (c = "└── " ∨ c = "├── "))
    (l : List (String × JNode)) (pre : String) :
    ∀ idx n line, line ∈ renderRows rec l pre idx n → ∃ pr c nm,
      line = pr ++ c ++ nm ∧ skipDirs.contains nm = false ∧ (c = "└── " ∨ c = "├── ") := by
  induction l with
  | nil => intro idx n line h; simp [renderRows] at h
  | cons e rest ih =>
    intro idx n line h
    rcases e with ⟨name, node⟩
    simp only [renderRows] at h
    rcases List.mem_append.mp h with h | h
    · by_cases hskip : skipDirs.contains name
      · rw [if_pos hskip] at h
        simp at h
      · rw [if_neg hskip] at h
        rcases List.mem_cons.mp h with rfl | h
        · refine ⟨pre, if (idx == n - 1) = true then "└── " else "├── ", name, ?_, ?_, ?_⟩
          · split <;> simp [String.append_assoc]
          · exact Bool.not_eq_true _ |>.mp hskip
          · split
            · exact Or.inl rfl
            · exact Or.inr rfl
        · split at h
          · exact hrec _ _ _ h
          · simp at h
    · exact ih (idx + 1) n line h

theorem renderFuel_line_shape (fuel : Nat) :
    ∀ m pre line, line ∈ renderFuel fuel m pre → ∃ pr c nm,
      line = pr ++ c ++ nm ∧ skipDirs.contains nm = false ∧ (c = "└── " ∨ c = "├── ") := by
  induction fuel with
  | zero => intro m pre line h; simp [renderFuel] at h
  | succ fuel ih =>
    intro m pre line h
    simp only [renderFuel] at h
    exact renderRows_line_shape _ (fun m' p' l' h' => ih m' p' l' h') _ _ _ _ line h

theorem ordBeq_true_iff (x y : Ordering) : (x == y) = true ↔ x = y := by
  cases x <;> cases y <;> decide

theorem ordBeq_false_iff (x y : Ordering) : (x == y) = false ↔ x ≠ y := by
  cases x <;> cases y <;> decide

theorem then_swap (x y : Ordering) : (x.then y).swap = x.swap.then y.swap := by
  cases x <;> cases y <;> rfl

theorem localeCmp_swap_eq (a b : String) : localeCmp b a = (localeCmp a b).swap := by
  unfold localeCmp
  rw [then_swap, strCmpL_swap (toLowerL a.data) (toLowerL b.data), strCmpL_swap b.data a.data]

/-! ## Claim C2 -/

/-- C2: for every input list of tree entries, the tree formatter emits at
most 300 lines; every emitted line consists of an indentation prefix, a
connector, and a rendered entry name that is not on the denylist; and a
denylisted entry contributes nothing to the rendering — neither its own line
nor (because the renderer never recurses into it) any descendant line. -/
theorem c2_formatFileTree_denylist_cap (items : List GitTreeItem) :
    (formatFileTreeLines items).length ≤ 300 ∧
    (∀ line ∈ formatFileTreeLines items, ∃ pr c nm,
      line = pr ++ c ++ nm ∧ skipDirs.contains nm = false ∧ (c = "└── " ∨ c = "├── ")) ∧
    (∀ rec name node rest pre idx n, skipDirs.contains name = true →
      renderRows rec ((name, node) :: rest) pre idx n = renderRows rec rest pre (idx + 1) n) := by
  refine ⟨?_, ?_, ?_⟩
  · calc (formatFileTreeLines items).length
        = min 300 (renderFuel (pathSegFuel items) (buildTree items) "").length :=
          List.length_take ..
      _ ≤ 300 := min_le_left ..
  · intro line h
    have h' : line ∈ renderFuel (pathSegFuel items) (buildTree items) "" :=
      List.mem_of_mem_take h
    exact renderFuel_line_shape _ _ _ line h'
  · intro rec name node rest pre idx n hskip
    have hskip' : name ∈ skipDirs := by simpa using hskip
    simp [renderRows, hskip']

/-- Witness for C2: the theorem applied at a concrete item list containing a
denylisted directory with a descendant, the hypothesis of the pruning
conjunct discharged at `node_modules`. -/
theorem c2_witness :
    ((formatFileTreeLines [⟨"node_modules/pkg/i.js", "blob"⟩, ⟨"src/a.ts", "blob"⟩]).length ≤ 300 ∧
      (∀ line ∈ formatFileTreeLines [⟨"node_modules/pkg/i.js", "blob"⟩, ⟨"src/a.ts", "blob"⟩],
        ∃ pr c nm, line = pr ++ c ++ nm ∧ skipDirs.contains nm = false ∧
          (c = "└── " ∨ c = "├── "))) ∧
    renderRows (fun _ _ => []) [("node_modules", JNode.mk "tree" [])] "" 0 2 =
      renderRows (fun _ _ => []) [] "" 1 2 := by
  refine ⟨⟨?_, ?_⟩, ?_⟩
  · exact (c2_formatFileTree_denylist_cap [⟨"node_modules/pkg/i.js", "blob"⟩, ⟨"src/a.ts", "blob"⟩]).1
  · exact (c2_formatFileTree_denylist_cap [⟨"node_modules/pkg/i.js", "blob"⟩, ⟨"src/a.ts", "blob"⟩]).2.1
  · exact (c2_formatFileTree_denylist_cap []).2.2 (fun _ _ => []) "node_modules" (JNode.mk "tree" [])
      [] "" 0 2 (by decide)

/-! ## Claim C5 -/

/-- C5 (amended): within every directory the renderer emits the (visible)
siblings sorted ascending by the locale-aware comparator
`String.prototype.localeCompare` — not by the ordinal code-unit order the
original claim states; `c5_counterexample` exhibits sibling names `a`, `B`
rendered in an order that is not ordinally ascending. -/
theorem c5_siblings_sorted_by_localeCompare (m : List (String × JNode)) :
    (visibleEntries m).Pairwise (fun a b => localeCmp a.1 b.1 ≠ .gt) ∧
    ∀ fuel pre, renderFuel (fuel + 1) m pre =
      renderRows (renderFuel fuel) (visibleEntries m) pre 0 (visibleEntries m).length := by
  constructor
  · have hp := sortS_pairwise (fun a b : String × JNode => localeCmp a.1 b.1 == Ordering.lt)
      (fun a b h => by
        rw [ordBeq_true_iff] at h
        rw [ordBeq_false_iff]
        exact localeCmp_asymm h)
      (fun a b c h1 h2 => by
        rw [ordBeq_true_iff] at h1 h2 ⊢
        exact localeCmp_lt_trans h1 h2)
      (m.filter (fun e => !(startsWithL e.1.data "__".data)))
    refine hp.imp ?_
    intro a b hab hgt
    rw [localeCmp_swap_eq, hgt] at hab
    exact absurd hab (by decide)
  · intro fuel pre
    rfl

/-- Counterexample to C5 as stated: with sibling files `a` and `B`, the
formatter renders `a` before `B` (the localeCompare collation places
lowercase `a` before uppercase `B`), yet `a` does not ordinally precede `B`
— the ordinal comparison says `a` is greater. -/
theorem c5_counterexample :
    formatFileTreeLines [⟨"a", "blob"⟩, ⟨"B", "blob"⟩] = ["├── a", "└── B"] ∧
    strCmpL "a".data "B".data = .gt := by
  constructor
  · decide
  · decide

/-! ## Claim C6 -/

theorem anyLowerEnds_iff (paths : List String) (suf : List Char) :
    ((paths.map jsToLower).any (fun p => endsWithL p.data suf)) = true ↔
      ∃ p ∈ paths, endsWithL (jsToLower p).data suf = true := by
  simp [List.any_map, List.any_eq_true, Function.comp]

/-- C6: `guessPackageManager` is total onto the four package managers: it
always returns one of pnpm, yarn, bun, npm; a path whose lower-cased form
ends in `pnpm-lock.yaml` forces `pnpm` regardless of any other lockfiles;
otherwise `yarn.lock` forces `yarn`; otherwise `bun.lockb` forces `bun`; and
with no recognized lockfile it returns `npm`. -/
theorem c6_guessPackageManager_total (paths : List String) :
    (guessPackageManager paths = .pnpm ∨ guessPackageManager paths = .yarn ∨
      guessPackageManager paths = .bun ∨ guessPackageManager paths = .npm) ∧
    ((∃ p ∈ paths, endsWithL (jsToLower p).data "pnpm-lock.yaml".data = true) →
      guessPackageManager paths = .pnpm) ∧
    ((∀ p ∈ paths, ¬ endsWithL (jsToLower p).data "pnpm-lock.yaml".data = true) →
      (∃ p ∈ paths, endsWithL (jsToLower p).data "yarn.lock".data = true) →
      guessPackageManager paths = .yarn) ∧
    ((∀ p ∈ paths, ¬ endsWithL (jsToLower p).data "pnpm-lock.yaml".data = true) →
      (∀ p ∈ paths, ¬ endsWithL (jsToLower p).data "yarn.lock".data = true) →
      (∃ p ∈ paths, endsWithL (jsToLower p).data "bun.lockb".data = true) →
      guessPackageManager paths = .bun) ∧
    ((∀ p ∈ paths, ¬ endsWithL (jsToLower p).data "pnpm-lock.yaml".data = true) →
      (∀ p ∈ paths, ¬ endsWithL (jsToLower p).data "yarn.lock".data = true) →
      (∀ p ∈ paths, ¬ endsWithL (jsToLower p).data "bun.lockb".data = true) →
      guessPackageManager paths = .npm) := by
  refine ⟨?_, ?_, ?_, ?_, ?_⟩
  · rcases hg : guessPackageManager paths <;> simp
  · intro h
    simp only [guessPackageManager]
    rw [if_pos ((anyLowerEnds_iff paths _).mpr h)]
  · intro hn h
    simp only [guessPackageManager]
    rw [if_neg ?_, if_pos ((anyLowerEnds_iff paths _).mpr h)]
    intro hc
    rcases (anyLowerEnds_iff paths _).mp hc with ⟨p, hp, hpe⟩
    exact hn p hp hpe
  · intro hn1 hn2 h
    simp only [guessPackageManager]
    rw [if_neg ?_, if_neg ?_, if_pos ((anyLowerEnds_iff paths _).mpr h)]
    · intro hc
      rcases (anyLowerEnds_iff paths _).mp hc with ⟨p, hp, hpe⟩
      exact hn2 p hp hpe
    · intro hc
      rcases (anyLowerEnds_iff paths _).mp hc with ⟨p, hp, hpe⟩
      exact hn1 p hp hpe
  · intro hn1 hn2 hn3
    simp only [guessPackageManager]
    rw [if_neg ?_, if_neg ?_, if_neg ?_]
    · intro hc
      rcases (anyLowerEnds_iff paths _).mp hc with ⟨p, hp, hpe⟩
      exact hn3 p hp hpe
    · intro hc
      rcases (anyLowerEnds_iff paths _).mp hc with ⟨p, hp, hpe⟩
      exact hn2 p hp hpe
    · intro hc
      rcases (anyLowerEnds_iff paths _).mp hc with ⟨p, hp, hpe⟩
      exact hn1 p hp hpe

/-- Witness for C6: the priority and default branches exercised on concrete
path lists (a pnpm lockfile beats a yarn lockfile that is also present; a
list with no recognized lockfile yields npm). -/
theorem c6_witness :
    guessPackageManager ["a/pnpm-lock.yaml", "yarn.lock"] = .pnpm ∧
    guessPackageManager ["src/index.ts", "package.json"] = .npm := by
  constructor
  · exact (c6_guessPackageManager_total ["a/pnpm-lock.yaml", "yarn.lock"]).2.1
      ⟨"a/pnpm-lock.yaml", by decide, by decide⟩
  · exact (c6_guessPackageManager_total ["src/index.ts", "package.json"]).2.2.2.2
      (by decide) (by decide) (by decide)

/-! ## Claim C9 -/

theorem jround_le (q : ℚ) : (jround q : ℚ) ≤ q + 1/2 := by
  unfold jround
  exact Int.floor_le (q + 1/2)

theorem pctOf_le (total v : ℕ) (ht : total ≠ 0) :
    pctOf total v ≤ (v : ℚ) / (total : ℚ) * 100 + 1/20 := by
  unfold pctOf
  rw [if_neg ht]
  have h := jround_le ((v : ℚ) / (total : ℚ) * 1000)
  have h10 : (jround ((v : ℚ) / (total : ℚ) * 1000) : ℚ) / 10 ≤
      ((v : ℚ) / (total : ℚ) * 1000 + 1/2) / 10 := by
    apply div_le_div_of_nonneg_right h
    norm_num
  have heq : ((v : ℚ) / (total : ℚ) * 1000 + 1/2) / 10 =
      (v : ℚ) / (total : ℚ) * 100 + 1/20 := by ring
  linarith

theorem cast_sum_snd (langs : List (String × Nat)) :
    (langs.map (fun kv => ((kv.2 : ℚ)))).sum = (((langs.map Prod.snd).sum : ℕ) : ℚ) := by
  induction langs with
  | nil => simp
  | cons kv rest ih => simp [ih]

theorem sum_pct_le (T : ℕ) (hT : T ≠ 0) (langs : List (String × Nat)) :
    (langs.map (fun kv => pctOf T kv.2)).sum ≤
      (langs.map (fun kv => (kv.2 : ℚ))).sum / (T : ℚ) * 100 + (langs.length : ℚ) / 20 := by
  induction langs with
  | nil => simp
  | cons kv rest ih =>
    simp only [List.map_cons, List.sum_cons, List.length_cons]
    have h1 := pctOf_le T kv.2 hT
    have hdiv : ((kv.2 : ℚ) + (rest.map (fun kv => (kv.2 : ℚ))).sum) / (T : ℚ) * 100
        = (kv.2 : ℚ) / (T : ℚ) * 100 + (rest.map (fun kv => (kv.2 : ℚ))).sum / (T : ℚ) * 100 := by
      ring
    push_cast
    linarith

/-- C9 (amended): every percentage produced by `languagesSummary` is a
non-negative integer multiple of one tenth; the entries are sorted by
percentage descending; and the percentages sum to at most `100` plus a
rounding drift of at most one twentieth per language — not to at most `100`
as the claim states (`c9_counterexample` exhibits a histogram whose
percentages sum to `100.1`). -/
theorem c9_languagesSummary_amended (langs : List (String × Nat)) :
    (∀ e ∈ langEntries langs, ∃ k : ℤ, 0 ≤ k ∧ e.2 = (k : ℚ) / 10) ∧
    (langEntries langs).Pairwise (fun a b => b.2 ≤ a.2) ∧
    ((langEntries langs).map Prod.snd).sum ≤ 100 + (langs.length : ℚ) / 20 ∧
    languagesSummary langs =
      (String.intercalate "\n" (((langEntries langs).take 8).map
        (fun kp => "- " ++ kp.1 ++ ": " ++ fmtPct kp.2 ++ "%")),
       ((langEntries langs).take 5).map Prod.fst) := by
  have hle : langEntries langs = sortS (fun a b => decide (b.2 < a.2))
      (langs.map (fun kv => (kv.1, pctOf (langs.map Prod.snd).sum kv.2))) := rfl
  refine ⟨?_, ?_, ?_, rfl⟩
  · intro e he
    rw [hle] at he
    have he' := (mem_sortS _ e _).mp he
    rcases List.mem_map.mp he' with ⟨kv, _, rfl⟩
    unfold pctOf
    split
    · exact ⟨0, le_rfl, by norm_num⟩
    · refine ⟨jround ((kv.2 : ℚ) / (((langs.map Prod.snd).sum : ℕ) : ℚ) * 1000), ?_, rfl⟩
      unfold jround
      rw [Int.le_floor]
      have hq : (0 : ℚ) ≤ (kv.2 : ℚ) / (((langs.map Prod.snd).sum : ℕ) : ℚ) * 1000 := by
        positivity
      simp only [Int.cast_zero]
      linarith
  · rw [hle]
    have hp := sortS_pairwise (fun a b : String × ℚ => decide (b.2 < a.2))
      (fun a b h => by
        rw [decide_eq_true_eq] at h
        rw [decide_eq_false_iff_not]
        exact lt_asymm h)
      (fun a b c h1 h2 => by
        rw [decide_eq_true_eq] at h1 h2 ⊢
        exact lt_trans h2 h1)
      (langs.map (fun kv => (kv.1, pctOf (langs.map Prod.snd).sum kv.2)))
    refine hp.imp ?_
    intro a b hab
    rw [decide_eq_false_iff_not] at hab
    exact le_of_not_lt hab
  · rw [hle]
    have hperm : ((sortS (fun a b : String × ℚ => decide (b.2 < a.2))
        (langs.map (fun kv => (kv.1, pctOf (langs.map Prod.snd).sum kv.2)))).map Prod.snd).Perm
        ((langs.map (fun kv => (kv.1, pctOf (langs.map Prod.snd).sum kv.2))).map Prod.snd) :=
      (sortS_perm _ _).map Prod.snd
    rw [hperm.sum_eq, List.map_map]
    have hmm : (Prod.snd ∘ fun kv : String × Nat =>
        (kv.1, pctOf (langs.map Prod.snd).sum kv.2)) =
        fun kv : String × Nat => pctOf (langs.map Prod.snd).sum kv.2 := rfl
    rw [hmm]
    by_cases ht : (langs.map Prod.snd).sum = 0
    · have hz : ∀ x ∈ langs.map (fun kv : String × Nat =>
          pctOf (langs.map Prod.snd).sum kv.2), x = 0 := by
        intro x hx
        rcases List.mem_map.mp hx with ⟨kv, _, rfl⟩
        simp [pctOf, ht]
      rw [List.sum_eq_zero hz]
      positivity
    · refine (sum_pct_le _ ht langs).trans ?_
      rw [cast_sum_snd, div_self (Nat.cast_ne_zero.mpr ht), one_mul]

/-- Counterexample to C9 as stated: the histogram A:1, B:1, C:1, D:3 rounds
to 16.7 + 16.7 + 16.7 + 50, and these percentages sum to 100.1 > 100. -/
theorem c9_counterexample :
    ((langEntries [("A", 1), ("B", 1), ("C", 1), ("D", 3)]).map Prod.snd).sum = 1001 / 10 ∧
    ¬ (((langEntries [("A", 1), ("B", 1), ("C", 1), ("D", 3)]).map Prod.snd).sum ≤ 100) := by
  have hs : ((langEntries [("A", 1), ("B", 1), ("C", 1), ("D", 3)]).map Prod.snd).sum
      = 1001 / 10 := by
    have hperm : ((langEntries [("A", 1), ("B", 1), ("C", 1), ("D", 3)]).map Prod.snd).Perm
        (([("A", 1), ("B", 1), ("C", 1), ("D", 3)].map
          (fun kv : String × Nat => ((kv.1 : String), pctOf 6 kv.2))).map Prod.snd) :=
      (sortS_perm _ _).map Prod.snd
    rw [hperm.sum_eq]
    have h1 : pctOf 6 1 = 167 / 10 := by
      unfold pctOf jround
      rw [if_neg (by norm_num)]
      norm_num [Int.floor_eq_iff]
    have h3 : pctOf 6 3 = 50 := by
      unfold pctOf jround
      rw [if_neg (by norm_num)]
      norm_num [Int.floor_eq_iff]
    simp [h1, h3]
    norm_num
  refine ⟨hs, ?_⟩
  rw [hs]
  norm_num

/-! ## Claim C3 -/

/-- C3 (amended): the Docker section is present in the composed document if
and only if `DetectionFlags.hasDocker` (absent: the block is empty; present:
the full section with the sanitized tag occurs in the output), and the image
tag is the repository name lower-cased with every character outside
`[a-z0-9-]` replaced by one hyphen each — so the tag never contains an
uppercase letter or a character outside `[a-z0-9-]`, but a run of k
non-alphanumeric characters yields k consecutive hyphens, not one
(`c3_counterexample`). -/
theorem c3_docker_section (params : BuildParams) (extras : Option BuildExtras) :
    ((detectOf extras).hasDocker = false →
      dockerBlock (detectOf extras).hasDocker (resolvedRepoName params.info params.repo) = "") ∧
    ((detectOf extras).hasDocker = true →
      containsStr (buildReadme params extras)
        ("## Docker\n\nBuild and run with Docker:\n\n```bash\n# Build image\ndocker build -t " ++
          dockerImageTag (resolvedRepoName params.info params.repo) ++
          ":latest .\n\n# Run container\ndocker run -p 3000:3000 " ++
          dockerImageTag (resolvedRepoName params.info params.repo) ++ ":latest\n```\n\n")) ∧
    (∀ name : String, ∀ c ∈ (dockerImageTag name).data,
      ('a' ≤ c ∧ c ≤ 'z') ∨ ('0' ≤ c ∧ c ≤ '9') ∨ c = '-') := by
  refine ⟨?_, ?_, ?_⟩
  · intro h
    simp [dockerBlock, h]
  · intro h
    refine ⟨"# " ++ resolvedRepoName params.info params.repo ++ "\n\n" ++
      badges params.owner params.repo (detectOf extras).hasCI ++ "\n\n" ++
      descriptionBlock ((aiOf extras).bind (fun a => a.description)) (baseDescOf params) ++
      "## About\n\n- Repository: https://github.com/" ++ params.owner ++ "/" ++ params.repo ++
      homepageLine params.info.homepage ++ "\n- Default branch: `" ++
      params.info.default_branch ++ "`\n- License: `" ++ resolvedLicense params.info ++
      "`\n\n## Table of Contents\n\n" ++
      toc (featGateOf ((aiOf extras).bind (fun a => a.features)) params.topics (stackOf params))
        (stackOf params) (languagesSummary params.languages).2
        ((aiOf extras).bind (fun a => a.usage)) (detectOf extras).hasDocker (fileTreeOf extras) ++
      "\n\n" ++
      featuresSection ((aiOf extras).bind (fun a => a.features)) params.topics (stackOf params) ++
      techStackBlock (stackOf params) ++
      languagesBlock (languagesSummary params.languages).2 (languagesSummary params.languages).1 ++
      "## Getting Started\n\n### Prerequisites\n\n- Node.js (recommended LTS)" ++
      enginesNote params.pkg.engines ++ "\n- " ++ jsToUpper (pmStr (pmOf extras)) ++
      " (or adjust commands for your package manager)\n\n### Installation\n\n" ++
      installationBlock ((aiOf extras).bind (fun a => a.installation)) params.owner params.repo
        (resolvedRepoName params.info params.repo) (pmOf extras) ++
      "### Running Locally\n\n" ++ runBlock (pmOf extras) ++
      "## Scripts\n\n| Script | Command | Description |\n|---|---|---|\n" ++
      scriptRows params.pkg.scripts ++ "\n\n" ++
      depsSection params.pkg.dependencies ++ devDepsSection params.pkg.devDependencies ++
      configurationBlock (detectOf extras).hasEnvExample ++
      usageBlock ((aiOf extras).bind (fun a => a.usage)),
      structureBlock (fileTreeOf extras) ++ contributingBlock ++ roadmapBlock ++ securityBlock ++
      "## License\n\nDistributed under the " ++ resolvedLicense params.info ++
      " License. See `LICENSE` for more information.\n\n" ++
      acknowledgementsBlock ++ faqBlock ++ "---\n\n> Generated with README Generator.\n", ?_⟩
    rw [buildReadme, h]
    simp [dockerBlock, String.append_assoc]
  · intro name c hc
    rcases List.mem_map.mp hc with ⟨c₀, _, rfl⟩
    split
    · rename_i hin
      exact hin
    · exact Or.inr (Or.inr rfl)

/-- Counterexample to C3 as stated: for the repository name `My  Cool App!`
(two spaces), the source's per-character replacement produces
`my--cool-app-`, while collapsing each non-alphanumeric run to a single
hyphen — as the claim describes — would produce `my-cool-app-`; the two
adjacent hyphens come from one replaced run. -/
theorem c3_counterexample :
    dockerImageTag "My  Cool App!" = "my--cool-app-" ∧
    collapseSpecTag "My  Cool App!" = "my-cool-app-" ∧
    ("my--cool-app-" : String) ≠ "my-cool-app-" := by
  refine ⟨by decide, by decide, by decide⟩

/-- Witness for C3: the Docker section occurs in a concrete composed
document when `hasDocker` is set; the empty-block conclusion at
`hasDocker = false`; and the character-set conclusion instantiated at
`My Cool App!`. -/
theorem c3_witness :
    containsStr
      (buildReadme { owner := "acme", repo := "widget", info := { name := "My Cool App!", default_branch := "main" } }
        (some { detect := some { hasDocker := true } }))
      ("## Docker\n\nBuild and run with Docker:\n\n```bash\n# Build image\ndocker build -t " ++
        dockerImageTag (resolvedRepoName { name := "My Cool App!", default_branch := "main" } "widget") ++
        ":latest .\n\n# Run container\ndocker run -p 3000:3000 " ++
        dockerImageTag (resolvedRepoName { name := "My Cool App!", default_branch := "main" } "widget") ++
        ":latest\n```\n\n") ∧
    dockerBlock (detectOf none).hasDocker (resolvedRepoName { name := "x" } "r") = "" ∧
    (∀ c ∈ (dockerImageTag "My Cool App!").data,
      ('a' ≤ c ∧ c ≤ 'z') ∨ ('0' ≤ c ∧ c ≤ '9') ∨ c = '-') := by
  refine ⟨?_, ?_, ?_⟩
  · exact (c3_docker_section
      { owner := "acme", repo := "widget", info := { name := "My Cool App!", default_branch := "main" } }
      (some { detect := some { hasDocker := true } })).2.1 rfl
  · exact (c3_docker_section { owner := "a", repo := "r", info := { name := "x" } } none).1 rfl
  · exact (c3_docker_section { owner := "a", repo := "r", info := {} } none).2.2 "My Cool App!"

/-! ## Claim C1 -/

theorem sdata_append (a b : String) : (a ++ b).data = a.data ++ b.data := rfl

/-- C1: `buildReadme` is total by construction and for every input — in
particular every combination of present/absent optional fields — its result
is non-empty and starts with the title line `# <repoName>`; when no license
is resolved (`info.license` absent) the license value renders as the literal
`N/A`, and the composed document contains the License section with that
value. -/
theorem c1_buildReadme_total (params : BuildParams) (extras : Option BuildExtras) :
    buildReadme params extras ≠ "" ∧
    (∃ t, buildReadme params extras =
      "# " ++ resolvedRepoName params.info params.repo ++ "\n\n" ++ t) ∧
    (params.info.license = none → resolvedLicense params.info = "N/A") ∧
    containsStr (buildReadme params extras)
      ("## License\n\nDistributed under the " ++ resolvedLicense params.info ++
        " License. See `LICENSE` for more information.\n\n") := by
  have hdec : ∃ t, buildReadme params extras =
      "# " ++ resolvedRepoName params.info params.repo ++ "\n\n" ++ t := by
    refine ⟨badges params.owner params.repo (detectOf extras).hasCI ++ "\n\n" ++
      descriptionBlock ((aiOf extras).bind (fun a => a.description)) (baseDescOf params) ++
      "## About\n\n- Repository: https://github.com/" ++ params.owner ++ "/" ++ params.repo ++
      homepageLine params.info.homepage ++ "\n- Default branch: `" ++
      params.info.default_branch ++ "`\n- License: `" ++ resolvedLicense params.info ++
      "`\n\n## Table of Contents\n\n" ++
      toc (featGateOf ((aiOf extras).bind (fun a => a.features)) params.topics (stackOf params))
        (stackOf params) (languagesSummary params.languages).2
        ((aiOf extras).bind (fun a => a.usage)) (detectOf extras).hasDocker (fileTreeOf extras) ++
      "\n\n" ++
      featuresSection ((aiOf extras).bind (fun a => a.features)) params.topics (stackOf params) ++
      techStackBlock (stackOf params) ++
      languagesBlock (languagesSummary params.languages).2 (languagesSummary params.languages).1 ++
      "## Getting Started\n\n### Prerequisites\n\n- Node.js (recommended LTS)" ++
      enginesNote params.pkg.engines ++ "\n- " ++ jsToUpper (pmStr (pmOf extras)) ++
      " (or adjust commands for your package manager)\n\n### Installation\n\n" ++
      installationBlock ((aiOf extras).bind (fun a => a.installation)) params.owner params.repo
        (resolvedRepoName params.info params.repo) (pmOf extras) ++
      "### Running Locally\n\n" ++ runBlock (pmOf extras) ++
      "## Scripts\n\n| Script | Command | Description |\n|---|---|---|\n" ++
      scriptRows params.pkg.scripts ++ "\n\n" ++
      depsSection params.pkg.dependencies ++ devDepsSection params.pkg.devDependencies ++
      configurationBlock (detectOf extras).hasEnvExample ++
      usageBlock ((aiOf extras).bind (fun a => a.usage)) ++
      dockerBlock (detectOf extras).hasDocker (resolvedRepoName params.info params.repo) ++
      structureBlock (fileTreeOf extras) ++ contributingBlock ++ roadmapBlock ++ securityBlock ++
      "## License\n\nDistributed under the " ++ resolvedLicense params.info ++
      " License. See `LICENSE` for more information.\n\n" ++
      acknowledgementsBlock ++ faqBlock ++ "---\n\n> Generated with README Generator.\n", ?_⟩
    rw [buildReadme]
    simp [String.append_assoc]
  refine ⟨?_, hdec, ?_, ?_⟩
  · rcases hdec with ⟨t, ht⟩
    intro hc
    rw [ht] at hc
    have hd := congrArg String.data hc
    simp [sdata_append] at hd
  · intro h
    simp [resolvedLicense, h, jsOrStr]
  · refine ⟨"# " ++ resolvedRepoName params.info params.repo ++ "\n\n" ++
      badges params.owner params.repo (detectOf extras).hasCI ++ "\n\n" ++
      descriptionBlock ((aiOf extras).bind (fun a => a.description)) (baseDescOf params) ++
      "## About\n\n- Repository: https://github.com/" ++ params.owner ++ "/" ++ params.repo ++
      homepageLine params.info.homepage ++ "\n- Default branch: `" ++
      params.info.default_branch ++ "`\n- License: `" ++ resolvedLicense params.info ++
      "`\n\n## Table of Contents\n\n" ++
      toc (featGateOf ((aiOf extras).bind (fun a => a.features)) params.topics (stackOf params))
        (stackOf params) (languagesSummary params.languages).2
        ((aiOf extras).bind (fun a => a.usage)) (detectOf extras).hasDocker (fileTreeOf extras) ++
      "\n\n" ++
      featuresSection ((aiOf extras).bind (fun a => a.features)) params.topics (stackOf params) ++
      techStackBlock (stackOf params) ++
      languagesBlock (languagesSummary params.languages).2 (languagesSummary params.languages).1 ++
      "## Getting Started\n\n### Prerequisites\n\n- Node.js (recommended LTS)" ++
      enginesNote params.pkg.engines ++ "\n- " ++ jsToUpper (pmStr (pmOf extras)) ++
      " (or adjust commands for your package manager)\n\n### Installation\n\n" ++
      installationBlock ((aiOf extras).bind (fun a => a.installation)) params.owner params.repo
        (resolvedRepoName params.info params.repo) (pmOf extras) ++
      "### Running Locally\n\n" ++ runBlock (pmOf extras) ++
      "## Scripts\n\n| Script | Command | Description |\n|---|---|---|\n" ++
      scriptRows params.pkg.scripts ++ "\n\n" ++
      depsSection params.pkg.dependencies ++ devDepsSection params.pkg.devDependencies ++
      configurationBlock (detectOf extras).hasEnvExample ++
      usageBlock ((aiOf extras).bind (fun a => a.usage)) ++
      dockerBlock (detectOf extras).hasDocker (resolvedRepoName params.info params.repo) ++
      structureBlock (fileTreeOf extras) ++ contributingBlock ++ roadmapBlock ++ securityBlock,
      acknowledgementsBlock ++ faqBlock ++ "---\n\n> Generated with README Generator.\n", ?_⟩
    rw [buildReadme]
    simp [String.append_assoc]

/-- Witness for C1: the theorem applied to the all-optionals-absent
configuration (empty topics, empty manifest, empty histogram, no tree, no
detection flags, no AI sections, no license). -/
theorem c1_witness :
    buildReadme { owner := "acme", repo := "widget", info := { name := "widget", default_branch := "main" } } none ≠ "" ∧
    (∃ t, buildReadme { owner := "acme", repo := "widget", info := { name := "widget", default_branch := "main" } } none =
      "# " ++ resolvedRepoName { name := "widget", default_branch := "main" } "widget" ++
        "\n\n" ++ t) ∧
    resolvedLicense { name := "widget", default_branch := "main" } = "N/A" ∧
    containsStr
      (buildReadme { owner := "acme", repo := "widget", info := { name := "widget", default_branch := "main" } } none)
      ("## License\n\nDistributed under the " ++
        resolvedLicense { name := "widget", default_branch := "main" } ++
        " License. See `LICENSE` for more information.\n\n") := by
  obtain ⟨h1, h2, h3, h4⟩ := c1_buildReadme_total
    { owner := "acme", repo := "widget", info := { name := "widget", default_branch := "main" } }
    none
  exact ⟨h1, h2, h3 rfl, h4⟩

/-! ## Claim C7 -/

/-- C7 (amended): whenever the AI-supplied features text is present and
non-empty, the rendered Features text is exactly that string, the Features
section wraps exactly that string, and the composed document contains it —
the topics bullet list and the generic placeholders are not used.  (For the
present-but-empty string the source falls back to the topics list:
`c7_counterexample`.) -/
theorem c7_features_verbatim (params : BuildParams) (extras : Option BuildExtras) (f : String)
    (hf : (aiOf extras).bind (fun a => a.features) = some f) (hne : f ≠ "") :
    featuresText ((aiOf extras).bind (fun a => a.features)) params.topics = f ∧
    featuresSection ((aiOf extras).bind (fun a => a.features)) params.topics (stackOf params) =
      "## Features\n\n" ++ f ++ "\n\n" ∧
    containsStr (buildReadme params extras) ("## Features\n\n" ++ f ++ "\n\n") := by
  have htext : featuresText ((aiOf extras).bind (fun a => a.features)) params.topics = f := by
    rw [hf]
    simp [featuresText, jsOrStr, hne]
  have hsec : featuresSection ((aiOf extras).bind (fun a => a.features)) params.topics
      (stackOf params) = "## Features\n\n" ++ f ++ "\n\n" := by
    rw [featuresSection, if_pos, htext]
    rw [hf]
    simp [featGateOf, truthyS, hne]
  refine ⟨htext, hsec, ?_⟩
  refine ⟨"# " ++ resolvedRepoName params.info params.repo ++ "\n\n" ++
    badges params.owner params.repo (detectOf extras).hasCI ++ "\n\n" ++
    descriptionBlock ((aiOf extras).bind (fun a => a.description)) (baseDescOf params) ++
    "## About\n\n- Repository: https://github.com/" ++ params.owner ++ "/" ++ params.repo ++
    homepageLine params.info.homepage ++ "\n- Default branch: `" ++
    params.info.default_branch ++ "`\n- License: `" ++ resolvedLicense params.info ++
    "`\n\n## Table of Contents\n\n" ++
    toc (featGateOf ((aiOf extras).bind (fun a => a.features)) params.topics (stackOf params))
      (stackOf params) (languagesSummary params.languages).2
      ((aiOf extras).bind (fun a => a.usage)) (detectOf extras).hasDocker (fileTreeOf extras) ++
    "\n\n",
    techStackBlock (stackOf params) ++
    languagesBlock (languagesSummary params.languages).2 (languagesSummary params.languages).1 ++
    "## Getting Started\n\n### Prerequisites\n\n- Node.js (recommended LTS)" ++
    enginesNote params.pkg.engines ++ "\n- " ++ jsToUpper (pmStr (pmOf extras)) ++
    " (or adjust commands for your package manager)\n\n### Installation\n\n" ++
    installationBlock ((aiOf extras).bind (fun a => a.installation)) params.owner params.repo
      (resolvedRepoName params.info params.repo) (pmOf extras) ++
    "### Running Locally\n\n" ++ runBlock (pmOf extras) ++
    "## Scripts\n\n| Script | Command | Description |\n|---|---|---|\n" ++
    scriptRows params.pkg.scripts ++ "\n\n" ++
    depsSection params.pkg.dependencies ++ devDepsSection params.pkg.devDependencies ++
    configurationBlock (detectOf extras).hasEnvExample ++
    usageBlock ((aiOf extras).bind (fun a => a.usage)) ++
    dockerBlock (detectOf extras).hasDocker (resolvedRepoName params.info params.repo) ++
    structureBlock (fileTreeOf extras) ++ contributingBlock ++ roadmapBlock ++ securityBlock ++
    "## License\n\nDistributed under the " ++ resolvedLicense params.info ++
    " License. See `LICENSE` for more information.\n\n" ++
    acknowledgementsBlock ++ faqBlock ++ "---\n\n> Generated with README Generator.\n", ?_⟩
  rw [buildReadme, hsec]
  simp [String.append_assoc]

/-- Counterexample to C7 as stated: an AI `features` value that is present
but empty (a legal output of the relay's trim/cap sanitizer) is falsy in
JavaScript, so the source falls back to the topics-derived bullet list
instead of rendering the present AI text verbatim. -/
theorem c7_counterexample :
    (aiOf (some { ai := some { features := some "" } })).bind (fun a => a.features) = some "" ∧
    featuresText (some "") ["alpha"] = "- alpha" ∧
    ("- alpha" : String) ≠ "" := by
  refine ⟨rfl, ?_, by decide⟩
  simp [featuresText, jsOrStr, String.intercalate, String.intercalate.go]

/-- Witness for C7: the theorem applied at a concrete non-empty AI features
text. -/
theorem c7_witness :
    featuresText ((aiOf (some { ai := some { features := some "- fast\n- safe" } })).bind (fun a => a.features)) ["topic1"] = "- fast\n- safe" ∧
    containsStr
      (buildReadme { owner := "acme", repo := "widget", info := { name := "widget", default_branch := "main" }, topics := ["topic1"] }
        (some { ai := some { features := some "- fast\n- safe" } }))
      ("## Features\n\n" ++ "- fast\n- safe" ++ "\n\n") := by
  obtain ⟨h1, _, h3⟩ := c7_features_verbatim
    { owner := "acme", repo := "widget", info := { name := "widget", default_branch := "main" }, topics := ["topic1"] }
    (some { ai := some { features := some "- fast\n- safe" } }) "- fast\n- safe" rfl (by decide)
  exact ⟨h1, h3⟩

/-! ## Claim C8 -/

/-- C8: the relay returns a structured JSON error body and the appropriate
status in each failure case: 405 for a non-POST non-OPTIONS method, 500 for
a missing (or empty) credential, 400 for an unparsable body or missing
owner/repo, and a 500 error embedding the provider's status and body text
when the provider responds non-success. -/
theorem c8_handler_errors (r : RelayReq) :
    (r.method ≠ "OPTIONS" → r.method ≠ "POST" →
      handler r = (405, .errJson "Method not allowed".data)) ∧
    (r.method = "POST" → (r.apiKey = none ∨ r.apiKey = some []) →
      handler r =
        (500, .errJson "Missing OPENAI_API_KEY. Add it as a secret for this function.".data)) ∧
    (r.method = "POST" → (∃ k, r.apiKey = some k ∧ k ≠ []) → r.body = none →
      handler r = (400, .errJson "Invalid JSON body".data)) ∧
    (r.method = "POST" → (∃ k, r.apiKey = some k ∧ k ≠ []) →
      ∀ b, r.body = some b → (b.owner = [] ∨ b.repo = []) →
      handler r = (400, .errJson "owner and repo are required".data)) ∧
    (r.method = "POST" → (∃ k, r.apiKey = some k ∧ k ≠ []) →
      ∀ b, r.body = some b → b.owner ≠ [] → b.repo ≠ [] → r.provider.ok = false →
      handler r = (500, .errJson ("OpenAI error ".data ++ (toString r.provider.status).data ++
        ": ".data ++ r.provider.text))) := by
  refine ⟨?_, ?_, ?_, ?_, ?_⟩
  · intro h1 h2
    simp [handler, h1, h2]
  · intro h1 h2
    rcases h2 with h2 | h2 <;>
      simp [handler, h1, h2]
  · intro h1 h2 h3
    rcases h2 with ⟨k, hk, hkne⟩
    simp [handler, h1, hk, h3, List.isEmpty_iff, hkne]
  · intro h1 h2 b hb howner
    rcases h2 with ⟨k, hk, hkne⟩
    rcases howner with h | h <;>
      simp [handler, h1, hk, hb, List.isEmpty_iff, hkne, h]
  · intro h1 h2 b hb ho hr hprov
    rcases h2 with ⟨k, hk, hkne⟩
    simp [handler, h1, hk, hb, List.isEmpty_iff, hkne, ho, hr, hprov]

/-- Witness for C8: every conclusion instantiated at a concrete request
exercising that branch (GET; POST without credential; POST with an
unparsable body; POST with a missing repo; POST with a failing provider). -/
theorem c8_witness :
    handler { method := "GET" } = (405, .errJson "Method not allowed".data) ∧
    handler { method := "POST", apiKey := none } =
      (500, .errJson "Missing OPENAI_API_KEY. Add it as a secret for this function.".data) ∧
    handler { method := "POST", body := none } = (400, .errJson "Invalid JSON body".data) ∧
    handler { method := "POST", body := some { owner := "o".data, repo := [] } } =
      (400, .errJson "owner and repo are required".data) ∧
    handler { method := "POST", body := some { owner := "o".data, repo := "r".data }, provider := { ok := false, status := 418, text := "teapot".data } } =
      (500, .errJson ("OpenAI error ".data ++
        (toString ({ ok := false, status := 418, text := "teapot".data } : ProviderResp).status).data ++
        ": ".data ++ ({ ok := false, status := 418, text := "teapot".data } : ProviderResp).text)) := by
  refine ⟨?_, ?_, ?_, ?_, ?_⟩
  · exact (c8_handler_errors { method := "GET" }).1 (by decide) (by decide)
  · exact (c8_handler_errors { method := "POST", apiKey := none }).2.1 rfl (Or.inl rfl)
  · exact (c8_handler_errors { method := "POST", body := none }).2.2.1 rfl
      ⟨"k".data, rfl, by decide⟩ rfl
  · exact (c8_handler_errors { method := "POST", body := some { owner := "o".data, repo := [] } }).2.2.2.1
      rfl ⟨"k".data, rfl, by decide⟩ { owner := "o".data, repo := [] } rfl (Or.inr rfl)
  · exact (c8_handler_errors { method := "POST", body := some { owner := "o".data, repo := "r".data }, provider := { ok := false, status := 418, text := "teapot".data } }).2.2.2.2
      rfl ⟨"k".data, rfl, by decide⟩ { owner := "o".data, repo := "r".data } rfl (by decide)
      (by decide) rfl

/-! ## Claim C10 -/

/-- C10 (amended): for every parsed reply value other than `null`, the relay
takes the strict-JSON path — no fallback — keeping only string values of the
four expected keys (each non-string value is dropped to an absent field),
and a successful request then yields status 200 with `success: true`
semantics (the `.success` body).  The original claim's "fallback only when
`JSON.parse` throws" is refuted by `c10_counterexample`: a reply parsing to
JSON `null` makes the four property reads throw, so the `catch` branch runs
the Markdown fallback parser even though the parse succeeded. -/
theorem c10_json_first (j : Json) (content : List Char) (hj : j ≠ .null) :
    fallbackUsed (some j) = false ∧
    sectionsOfContent (some j) content =
      { description := sanitizeStr (jsPropD j "description".data)
        features := sanitizeStr (jsPropD j "features".data)
        installation := sanitizeStr (jsPropD j "installation".data)
        usage := sanitizeStr (jsPropD j "usage".data) } ∧
    (∀ k, (∀ s, jsPropD j k ≠ some (.str s)) → sanitizeStr (jsPropD j k) = none) ∧
    (∀ r : RelayReq, r.method = "POST" → (∃ kk, r.apiKey = some kk ∧ kk ≠ []) →
      ∀ b, r.body = some b → b.owner ≠ [] → b.repo ≠ [] → r.provider.ok = true →
      r.parsed = some j →
      handler r = (200, .success
        (sectionsOfContent (some j) ((r.provider.content.map trimL).getD []))
        ((r.provider.content.map trimL).getD []))) := by
  have hjp : jsonPathSections j =
      some { description := sanitizeStr (jsPropD j "description".data)
             features := sanitizeStr (jsPropD j "features".data)
             installation := sanitizeStr (jsPropD j "installation".data)
             usage := sanitizeStr (jsPropD j "usage".data) } := by
    cases j <;> first | exact absurd rfl hj | rfl
  refine ⟨?_, ?_, ?_, ?_⟩
  · simp [fallbackUsed, hjp]
  · simp [sectionsOfContent, hjp]
  · intro k hk
    rcases hv : jsPropD j k with _ | v
    · rfl
    · cases v with
      | str s => exact absurd hv (hk s)
      | null => rfl
      | bool b => rfl
      | num q => rfl
      | arr es => rfl
      | obj fs => rfl
  · intro r h1 h2 b hb ho hrep hprov hparsed
    rcases h2 with ⟨kk, hkk, hkkne⟩
    simp [handler, h1, hkk, hb, List.isEmpty_iff, hkkne, ho, hrep, hprov, hparsed]

/-- Counterexample to C10 as stated: the completion reply `"null"` parses
successfully to JSON `null`, yet the fallback parser is the branch that
runs (the property reads on `null` throw a `TypeError` caught by the same
`catch` as a parse failure) — so the fallback is not invoked only when
`JSON.parse` throws. -/
theorem c10_counterexample :
    fallbackUsed (some Json.null) = true ∧
    (some Json.null ≠ (none : Option Json)) ∧
    sectionsOfContent (some Json.null) "null".data = parseSections "null".data := by
  refine ⟨rfl, by simp, rfl⟩

/-- Witness for C10: the theorem applied at the concrete parsed reply
`{"description": "d", "features": 7}` — a JSON object with one string field
and one non-string field — for a concrete successful request. -/
theorem c10_witness :
    fallbackUsed (some (Json.obj [("description".data, .str "d".data), ("features".data, .num 7)])) = false ∧
    sanitizeStr (jsPropD (Json.obj [("description".data, .str "d".data), ("features".data, .num 7)]) "features".data) = none ∧
    handler { method := "POST", body := some { owner := "o".data, repo := "r".data }, provider := { ok := true, status := 200, text := [], content := some "x".data }, parsed := some (Json.obj [("description".data, .str "d".data), ("features".data, .num 7)]) } =
      (200, .success
        (sectionsOfContent (some (Json.obj [("description".data, .str "d".data), ("features".data, .num 7)]))
          ((some ("x".data) |>.map trimL).getD []))
        ((some ("x".data) |>.map trimL).getD [])) := by
  obtain ⟨h1, _, h3, h4⟩ := c10_json_first
    (Json.obj [("description".data, .str "d".data), ("features".data, .num 7)]) [] (by simp)
  refine ⟨h1, ?_, ?_⟩
  · exact h3 "features".data (by intro s h; simp [jsPropD, jsPropD.lookupJ] at h)
  · exact h4 { method := "POST", body := some { owner := "o".data, repo := "r".data }, provider := { ok := true, status := 200, text := [], content := some "x".data }, parsed := some (Json.obj [("description".data, .str "d".data), ("features".data, .num 7)]) }
      rfl ⟨"k".data, rfl, by decide⟩ { owner := "o".data, repo := "r".data } rfl (by decide)
      (by decide) rfl rfl

/-! ## Claim C4 -/

/-- C4 (amended): on the strict-JSON path every string field is trimmed and
capped at 12,000 characters (`sanitizeStr`), so every present field of the
JSON-path sections has length at most 12,000; on the Markdown-heading
fallback path every present field is the trimmed section body capped at 400
lines, with no character cap — `c4_counterexample` exhibits a fallback reply
whose returned field has 12,001 characters. -/
theorem c4_trim_cap_paths :
    (∀ v s, sanitizeStr v = some s → s.length ≤ 12000 ∧ ∃ w, v = some (.str w) ∧
      s = (if (trimL w).length > 12000 then (trimL w).take 12000 else trimL w)) ∧
    (∀ j sct, jsonPathSections j = some sct →
      ∀ x ∈ [sct.description, sct.features, sct.installation, sct.usage],
        ∀ cs, x = some cs → cs.length ≤ 12000) ∧
    (∀ md, ∀ x ∈ [(parseSections md).description, (parseSections md).features,
        (parseSections md).installation, (parseSections md).usage],
      ∀ cs, x = some cs → ∃ b, cs = takeLines (trimL b) 400) := by
  have hsan : ∀ v s, sanitizeStr v = some s → s.length ≤ 12000 ∧ ∃ w, v = some (.str w) ∧
      s = (if (trimL w).length > 12000 then (trimL w).take 12000 else trimL w) := by
    intro v s hv
    rcases v with _ | j
    · simp [sanitizeStr] at hv
    rcases j with _ | b | q | w | es | fs <;> simp [sanitizeStr] at hv
    refine ⟨?_, w, rfl, hv.symm⟩
    subst hv
    split
    · rw [List.length_take]
      omega
    · omega
  refine ⟨hsan, ?_, ?_⟩
  · intro j sct hj x hx cs hcs
    have hfield : x = sanitizeStr (jsPropD j "description".data) ∨
        x = sanitizeStr (jsPropD j "features".data) ∨
        x = sanitizeStr (jsPropD j "installation".data) ∨
        x = sanitizeStr (jsPropD j "usage".data) := by
      cases j <;> simp [jsonPathSections] at hj
      all_goals
        rw [← hj] at hx
        simpa using hx
    rcases hfield with hf | hf | hf | hf <;>
      exact (hsan _ cs (hf ▸ hcs)).1
  · intro md
    suffices h : ∀ (secs : List (List Char)) (r : Sections),
        (∀ x ∈ [r.description, r.features, r.installation, r.usage],
          ∀ cs, x = some cs → ∃ b, cs = takeLines (trimL b) 400) →
        ∀ x ∈ [(secs.foldl applySec r).description, (secs.foldl applySec r).features,
            (secs.foldl applySec r).installation, (secs.foldl applySec r).usage],
          ∀ cs, x = some cs → ∃ b, cs = takeLines (trimL b) 400 by
      intro x hx cs hcs
      exact h (splitSecs md) {} (by simp) x hx cs hcs
    intro secs
    induction secs with
    | nil => intro r hr; simpa using hr
    | cons sec rest ih =>
      intro r hr
      rw [List.foldl_cons]
      apply ih
      rw [applySec]
      rcases matchSec sec with _ | ⟨title, body⟩
      · exact hr
      · simp only
        split
        · intro x hx cs hcs
          simp at hx
          rcases hx with rfl | rfl | rfl | rfl
          · exact ⟨body, Option.some.inj hcs |>.symm⟩
          · exact hr _ (by simp) cs hcs
          · exact hr _ (by simp) cs hcs
          · exact hr _ (by simp) cs hcs
        split
        · intro x hx cs hcs
          simp at hx
          rcases hx with rfl | rfl | rfl | rfl
          · exact hr _ (by simp) cs hcs
          · exact ⟨body, Option.some.inj hcs |>.symm⟩
          · exact hr _ (by simp) cs hcs
          · exact hr _ (by simp) cs hcs
        split
        · intro x hx cs hcs
          simp at hx
          rcases hx with rfl | rfl | rfl | rfl
          · exact hr _ (by simp) cs hcs
          · exact hr _ (by simp) cs hcs
          · exact ⟨body, Option.some.inj hcs |>.symm⟩
          · exact hr _ (by simp) cs hcs
        split
        · intro x hx cs hcs
          simp at hx
          rcases hx with rfl | rfl | rfl | rfl
          · exact hr _ (by simp) cs hcs
          · exact hr _ (by simp) cs hcs
          · exact hr _ (by simp) cs hcs
          · exact ⟨body, Option.some.inj hcs |>.symm⟩
        · exact hr

theorem splitSecs_replicate (n : Nat) :
    splitSecs (List.replicate n 'a') = [List.replicate n 'a'] := by
  induction n with
  | zero => rfl
  | succ m ih =>
    rw [List.replicate_succ]
    simp [splitSecs, ih]

theorem splitLinesL_replicate (n : Nat) :
    splitLinesL (List.replicate n 'a') = [List.replicate n 'a'] := by
  induction n with
  | zero => rfl
  | succ m ih =>
    rw [List.replicate_succ]
    simp [splitLinesL, ih]

theorem dropWhile_ws_replicate (n : Nat) :
    (List.replicate n 'a').dropWhile isWsCh = List.replicate n 'a' := by
  cases n <;> rfl

theorem trimL_replicate (n : Nat) :
    trimL (List.replicate n 'a') = List.replicate n 'a' := by
  unfold trimL
  rw [dropWhile_ws_replicate, List.reverse_replicate, dropWhile_ws_replicate,
    List.reverse_replicate]

theorem takeLines_replicate (n : Nat) :
    takeLines (List.replicate n 'a') 400 = List.replicate n 'a' := by
  unfold takeLines
  rw [splitLinesL_replicate]
  simp [List.intercalate]

theorem splitSecs_header (n : Nat) :
    splitSecs ("## Features\n".data ++ List.replicate n 'a') =
      ["## Features\n".data ++ List.replicate n 'a'] := by
  have hss : isSecStart (List.replicate n 'a') = false := by
    cases n <;> rfl
  show splitSecs ('#' :: '#' :: ' ' :: 'F' :: 'e' :: 'a' :: 't' :: 'u' :: 'r' :: 'e' :: 's' ::
    '\n' :: List.replicate n 'a') = _
  simp [splitSecs, hss, splitSecs_replicate n]

theorem matchSec_header (n : Nat) :
    matchSec ("## Features\n".data ++ List.replicate n 'a') =
      some ("Features".data, List.replicate n 'a') := rfl

/-- Counterexample to C4 as stated: a non-JSON completion reply consisting
of a Features heading followed by a 12,001-character line.  The fallback
parser returns that line as the `features` field untouched — 12,001
characters, beyond the 12,000-character cap the claim asserts for every
returned field. -/
theorem c4_counterexample :
    (parseSections ("## Features\n".data ++ List.replicate 12001 'a')).features =
      some (List.replicate 12001 'a') ∧
    12000 < (List.replicate 12001 'a').length := by
  constructor
  · rw [parseSections, splitSecs_header 12001, List.foldl_cons, List.foldl_nil, applySec,
      matchSec_header 12001]
    simp only
    rw [trimL_replicate, takeLines_replicate]
    rw [if_neg (by decide), if_pos (by decide)]
  · rw [List.length_replicate]
    norm_num

/-- Witness for C4: the sanitizer conclusions at the concrete value
`" d "` (trimmed to `d`, treated on the JSON path), and the fallback-shape
conclusion at the concrete reply `"## Usage\nu"`. -/
theorem c4_witness :
    (∃ w, (some (Json.str " d ".data) : Option Json) = some (.str w) ∧
      "d".data = (if (trimL w).length > 12000 then (trimL w).take 12000 else trimL w)) ∧
    ("d".data : List Char).length ≤ 12000 ∧
    (∀ cs, (parseSections "## Usage\nu".data).usage = some cs →
      ∃ b, cs = takeLines (trimL b) 400) := by
  obtain ⟨hs, -, -⟩ := c4_trim_cap_paths
  have h1 := hs (some (Json.str " d ".data)) "d".data (by decide)
  refine ⟨h1.2, h1.1, ?_⟩
  intro cs hcs
  exact (c4_trim_cap_paths.2.2 "## Usage\nu".data) _ (by simp) cs hcs

/-- Witness for C9: the theorem applied at the histogram TS:7, CSS:3, with
the multiple-of-a-tenth conclusion instantiated at the TypeScript entry. -/
theorem c9_witness :
    (∃ k : ℤ, 0 ≤ k ∧ (("TS", pctOf 10 7) : String × ℚ).2 = (k : ℚ) / 10) ∧
    ((langEntries [("TS", 7), ("CSS", 3)]).map Prod.snd).sum ≤
      100 + (([("TS", 7), ("CSS", 3)] : List (String × Nat)).length : ℚ) / 20 := by
  obtain ⟨h1, h2, h3, h4⟩ := c9_languagesSummary_amended [("TS", 7), ("CSS", 3)]
  refine ⟨?_, h3⟩
  exact h1 ("TS", pctOf 10 7)
    ((mem_sortS _ _ _).mpr (List.mem_map.mpr ⟨("TS", 7), by simp, rfl⟩))
